import Mathlib

/-!
# ElderEase: task lifecycle and notification fan-out

A shallow embedding of `src/elderease/server.js`: the bespoke routes of the
json-server instance (`POST /tasks`, `PATCH /tasks/:id`,
`PATCH /tasks/:id/archive`, `GET` and `POST /tasks/:id/messages`,
`PATCH /users/:id/rate`, `PATCH /notifications/:id`) and the helper
`createNotification`.

Modelling decisions.

* A JavaScript value read from a JSON body or from `db.json` is a `JVal`.
  Numbers are rationals (every finite double is one; `-0` is identified with
  `0`); their textual rendering is left to the `Host`.  The arithmetic on them
  is that of IEEE-754 doubles: the exact result rounded to the nearest double,
  ties to even (`roundDouble`).
* An object is an ordered association list (`Rec`); reading a field that is
  absent yields `undefined`, as property access does.  Entries stand in
  insertion order; JavaScript's reordering of integer-like keys is not
  modelled (no handler depends on the order of keys), and `__proto__` is a key
  like any other, as it is for `JSON.parse`, object spread and lodash `assign`.
* The lowdb state is a `Store` of four collections of records.  lodash's
  `find` returns the first match, and `assign` mutates that record in place, so
  the handler's `task` variable denotes the record as it stands after the merge.
* `Date.now()` and `new Date()` consume successive readings of `clock`, the
  readings taken while one request is handled.
* A handler that throws is answered by Express with status 500; that outcome is
  `Response.fault`, and the store keeps whatever was written before the throw.
* Template literals apply JavaScript's `ToString` to the interpolated value.
  That conversion throws a `TypeError` on an object carrying an own `toString`
  entry (the entry is not callable, and `valueOf` returns the object itself),
  so `toStr` is a function into `Option`.  The `console.log` lines that
  interpolate a value are part of the model for that reason; the console
  itself is taken to print and return.
* `req.body` is the object Express parsed from the request (`{}` when the
  request carries none), `req.params.id` is a string.
-/

namespace ElderEase

/-- A JavaScript value as it occurs in request bodies and in the store. -/
inductive JVal where
  | undefined
  | null
  | bool (b : Bool)
  | num (q : Rat)
  | str (s : String)
  | arr (xs : List JVal)
  | obj (fs : List (String × JVal))

/-- An object: its own enumerable properties in insertion order. -/
abbrev Rec := List (String × JVal)

/-- Primitives of the JavaScript host and of lodash that the embedding keeps
abstract: `Number.prototype.toString`, `Date.prototype.toISOString` (of a
millisecond reading), lodash's deep comparison of an object-like source value
against a field value (`baseIsEqual` as `_.matches` calls it), and the value of
`xs.reduce((a, b) => a + b) / xs.length` on an array that does not consist of
numbers only, or whose running sum leaves the range of finite doubles (`none`
when the evaluation throws). -/
structure Host where
  numToString : Rat → String
  toISOString : Nat → String
  isEqualDeep : JVal → JVal → Bool
  mixedMean : List JVal → Option JVal

/-- The double quote character, as a string. -/
def dq : String := String.singleton (Char.ofNat 34)

/-- Property read `r[k]`: the value of the first entry named `k`, `undefined`
when there is none. -/
def getField : Rec → String → JVal
  | [], _ => JVal.undefined
  | (k', v) :: rest, k => if k' = k then v else getField rest k

/-- Own-property test `k in r`. -/
def hasField : Rec → String → Bool
  | [], _ => false
  | (k', _) :: rest, k => if k' = k then true else hasField rest k

/-- Property write `r[k] = v`: an existing entry keeps its position, a new one
is appended. -/
def setField : Rec → String → JVal → Rec
  | [], k, v => [(k, v)]
  | (k', v') :: rest, k, v =>
    if k' = k then (k, v) :: rest else (k', v') :: setField rest k v

/-- The loop of `Object.assign`: for each key of the source in turn,
`target[key] = source[key]`. -/
def assignKeys (source : Rec) : List String → Rec → Rec
  | [], target => target
  | k :: ks, target => assignKeys source ks (setField target k (getField source k))

/-- The call `Object.assign(target, source)` (lodash `assign`). -/
def assign (target source : Rec) : Rec :=
  assignKeys source (source.map Prod.fst) target

/-- The object spread `{ ...source }`. -/
def spread (source : Rec) : Rec := assign [] source

/-- JavaScript truthiness (`ToBoolean`). -/
def truthy : JVal → Bool
  | JVal.undefined => false
  | JVal.null => false
  | JVal.bool b => b
  | JVal.num q => decide (q ≠ 0)
  | JVal.str s => decide (s ≠ "")
  | JVal.arr _ => true
  | JVal.obj _ => true

/-- Strict equality `a === b` between a value of the request and a value of the
store, or a literal: primitives compare by value, and two objects are never the
same object. -/
def strictEq : JVal → JVal → Bool
  | JVal.undefined, JVal.undefined => true
  | JVal.null, JVal.null => true
  | JVal.bool a, JVal.bool b => decide (a = b)
  | JVal.num a, JVal.num b => decide (a = b)
  | JVal.str a, JVal.str b => decide (a = b)
  | _, _ => false

mutual
/-- JavaScript `ToString`, as a template literal applies it; `none` when it
throws a `TypeError`. -/
def toStr (h : Host) : JVal → Option String
  | JVal.undefined => some "undefined"
  | JVal.null => some "null"
  | JVal.bool true => some "true"
  | JVal.bool false => some "false"
  | JVal.num q => some (h.numToString q)
  | JVal.str s => some s
  | JVal.arr xs => joinStr h xs
  | JVal.obj fs => if hasField fs "toString" then none else some "[object Object]"
termination_by structural v => v
/-- The method `Array.prototype.join` with the separator `,`: `undefined` and
`null` elements render as the empty string. -/
def joinStr (h : Host) : List JVal → Option String
  | [] => some ""
  | x :: rest =>
    match (match x with
      | JVal.undefined => some ""
      | JVal.null => some ""
      | v => toStr h v), joinStr h rest with
    | some a, some b => some (if rest.isEmpty then a else a ++ "," ++ b)
    | _, _ => none
termination_by structural xs => xs
end

/-- The predicate lodash builds for `{ [k]: src }` when `src` is a primitive
(`matchesStrictComparable`): `object[k] === src && (src !== undefined || k in object)`. -/
def matchesStrict (k : String) (src : JVal) (r : Rec) : Bool :=
  strictEq (getField r k) src &&
    ((match src with
      | JVal.undefined => false
      | _ => true) || hasField r k)

/-- The predicate lodash builds for `{ [k]: src }` (`_.matches`): the strict
comparison for a primitive `src`, otherwise the key must be present and the
deep comparison decides. -/
def matchesProp (h : Host) (k : String) (src : JVal) (r : Rec) : Bool :=
  match src with
  | JVal.arr _ => hasField r k && h.isEqualDeep src (getField r k)
  | JVal.obj _ => hasField r k && h.isEqualDeep src (getField r k)
  | _ => matchesStrict k src r

/-- The chain `find(p).assign(...)`: the first record satisfying `p` is
replaced by its image under `f`; the others are untouched. -/
def updateFirst (p : Rec → Bool) (f : Rec → Rec) : List Rec → List Rec
  | [] => []
  | r :: rs => if p r then f r :: rs else r :: updateFirst p f rs

/-- The lowdb state: the four top-level arrays of `db.json`. -/
structure Store where
  tasks : List Rec
  users : List Rec
  messages : List Rec
  notifications : List Rec

/-- What the client receives: `res.status(n).json(body)`, or the 500 that
Express sends when the handler throws. -/
inductive Response where
  | json (status : Nat) (body : JVal)
  | fault

/-- The record `createNotification` builds; `idAt` and `createdAt` are the two
clock readings it takes. -/
def newNotification (h : Host) (idAt createdAt : Nat) (userId : JVal)
    (title message : String) (taskId : JVal) : Rec :=
  [("id", JVal.str (toString idAt)),
   ("userId", userId),
   ("title", JVal.str title),
   ("message", JVal.str message),
   ("taskId", taskId),
   ("read", JVal.bool false),
   ("createdAt", JVal.str (h.toISOString createdAt))]

/-- The helper `createNotification(userId, title, message, taskId)`, taking
readings `k` and `k + 1` of the clock.  Its first statement logs
`Creating notification for user ${userId}`, which throws when `userId` cannot
be rendered; nothing has been written at that point. -/
def createNotification (h : Host) (clock : Nat → Nat) (k : Nat) (userId : JVal)
    (title message : String) (taskId : JVal) (db : Store) : Option Store :=
  match toStr h userId with
  | none => none
  | some _ =>
    some { db with
      notifications := db.notifications ++
        [newNotification h (clock k) (clock (k + 1)) userId title message taskId] }

/-- Message of the fan-out of `POST /tasks`. -/
def newTaskMessage (title : String) : String :=
  "A new task " ++ dq ++ title ++ dq ++ " is available."

/-- Message of the `Accepted` rule. -/
def acceptedMessage (title firstName lastName : String) : String :=
  "Your task " ++ dq ++ title ++ dq ++ " has been accepted by " ++ firstName ++ " " ++
    lastName ++ "."

/-- Message to the requester under the `Completed` rule. -/
def completedElderlyMessage (title : String) : String :=
  "Your task " ++ dq ++ title ++ dq ++
    " has been marked as completed. Please confirm and rate the volunteer."

/-- Message to the volunteer under the `Completed` rule. -/
def completedVolunteerMessage (title : String) : String :=
  "You have marked the task " ++ dq ++ title ++ dq ++
    " as completed. Waiting for elderly confirmation."

/-- Message of the rated rule. -/
def ratedMessage (title rating : String) : String :=
  "The task " ++ dq ++ title ++ dq ++
    " has been confirmed completed and you've received a rating of " ++ rating ++ "."

/-- Message of `POST /tasks/:id/messages`. -/
def newMessageMessage (title : String) : String :=
  "You have a new message in task " ++ dq ++ title ++ dq ++ "."

/-- Message of `PATCH /users/:id/rate`. -/
def newRatingMessage (rating title : String) : String :=
  "You received a new rating of " ++ rating ++ " for the task " ++ dq ++ title ++ dq ++ "."

/-- The `forEach` over the volunteers in `POST /tasks`, from clock reading `k`
on.  The log line before the `try` interpolates `volunteer.id` and ends the
handler when it throws (`false`); a throw inside the `try` (from the message
template or from `createNotification`) is caught, logged with `volunteer.id`
again, and the loop goes on to the next volunteer. -/
def notifyVolunteers (h : Host) (clock : Nat → Nat) (newTask : Rec) :
    List Rec → Nat → Store → Bool × Store
  | [], _, db => (true, db)
  | volunteer :: rest, k, db =>
    match toStr h (getField volunteer "id") with
    | none => (false, db)
    | some _ =>
      match (match toStr h (getField newTask "title") with
        | none => none
        | some title =>
          createNotification h clock k (getField volunteer "id") "New Task Available"
            (newTaskMessage title) (getField newTask "id") db) with
      | some db' => notifyVolunteers h clock newTask rest (k + 2) db'
      | none =>
        match toStr h (getField volunteer "id") with
        | none => (false, db)
        | some _ => notifyVolunteers h clock newTask rest k db

/-- The users `filter({ userType: "volunteer" })` selects. -/
def volunteersOf (db : Store) : List Rec :=
  db.users.filter (matchesStrict "userType" (JVal.str "volunteer"))

/-- The task `POST /tasks` stores: `{ ...req.body, id: Date.now().toString() }`. -/
def newTaskOf (clock : Nat → Nat) (body : Rec) : Rec :=
  setField (spread body) "id" (JVal.str (toString (clock 0)))

/-- The route `POST /tasks` (CreateTask). -/
def createTask (h : Host) (clock : Nat → Nat) (body : Rec) (db : Store) : Response × Store :=
  let newTask := newTaskOf clock body
  let db1 : Store := { db with tasks := db.tasks ++ [newTask] }
  match notifyVolunteers h clock newTask (volunteersOf db1) 1 db1 with
  | (true, db2) => (Response.json 201 (JVal.obj newTask), db2)
  | (false, db2) => (Response.fault, db2)

/-- Body of the success answer of `PATCH /tasks/:id`. -/
def taskUpdatedBody : JVal :=
  JVal.obj [("success", JVal.bool true), ("message", JVal.str "Task updated successfully")]

/-- Body of the 404 answer of `PATCH /tasks/:id`. -/
def taskNotFoundBody : JVal :=
  JVal.obj [("success", JVal.bool false), ("message", JVal.str "Task not found")]

/-- The `Accepted` rule of `PATCH /tasks/:id`; `task` is the merged record.
Reading `volunteer.firstName` throws when the lookup found no user. -/
def notifyAccepted (h : Host) (clock : Nat → Nat) (taskId : String) (volunteerId : JVal)
    (task : Rec) (db : Store) : Option Store :=
  match db.users.find? (matchesProp h "id" volunteerId) with
  | none => none
  | some volunteer =>
    match toStr h (getField task "title"), toStr h (getField volunteer "firstName"),
        toStr h (getField volunteer "lastName") with
    | some title, some firstName, some lastName =>
      createNotification h clock 0 (getField task "elderlyId") "Task Accepted"
        (acceptedMessage title firstName lastName) (JVal.str taskId) db
    | _, _, _ => none

/-- The `Completed` rule of `PATCH /tasks/:id`; `task` is the merged record.
The result is the store reached and whether the rule ran to its end: the first
notification stays written when the second call throws. -/
def notifyCompleted (h : Host) (clock : Nat → Nat) (taskId : String) (task : Rec)
    (db : Store) : Bool × Store :=
  match toStr h (getField task "title") with
  | none => (false, db)
  | some title =>
    match createNotification h clock 0 (getField task "elderlyId") "Task Completed"
        (completedElderlyMessage title) (JVal.str taskId) db with
    | none => (false, db)
    | some db1 =>
      match createNotification h clock 2 (getField task "volunteerId") "Task Completed"
          (completedVolunteerMessage title) (JVal.str taskId) db1 with
      | none => (false, db1)
      | some db2 => (true, db2)

/-- The rated rule of `PATCH /tasks/:id`; `task` is the merged record. -/
def notifyRated (h : Host) (clock : Nat → Nat) (taskId : String) (rating : JVal)
    (task : Rec) (db : Store) : Option Store :=
  match toStr h (getField task "title"), toStr h rating with
  | some title, some r =>
    createNotification h clock 0 (getField task "volunteerId") "Task Rated"
      (ratedMessage title r) (JVal.str taskId) db
  | _, _ => none

/-- The route `PATCH /tasks/:id` (UpdateTask). -/
def updateTask (h : Host) (clock : Nat → Nat) (taskId : String) (body : Rec)
    (db : Store) : Response × Store :=
  let status := getField body "status"
  let volunteerId := getField body "volunteerId"
  let elderlyConfirmed := getField body "elderlyConfirmed"
  let rating := getField body "rating"
  match db.tasks.find? (matchesStrict "id" (JVal.str taskId)) with
  | none => (Response.json 404 taskNotFoundBody, db)
  | some found =>
    let task := assign found (spread body)
    let db1 : Store :=
      { db with
        tasks := updateFirst (matchesStrict "id" (JVal.str taskId))
          (fun t => assign t (spread body)) db.tasks }
    if strictEq status (JVal.str "Accepted") then
      match notifyAccepted h clock taskId volunteerId task db1 with
      | none => (Response.fault, db1)
      | some db2 => (Response.json 200 taskUpdatedBody, db2)
    else if strictEq status (JVal.str "Completed") then
      match notifyCompleted h clock taskId task db1 with
      | (false, db2) => (Response.fault, db2)
      | (true, db2) => (Response.json 200 taskUpdatedBody, db2)
    else if truthy elderlyConfirmed && truthy rating then
      match notifyRated h clock taskId rating task db1 with
      | none => (Response.fault, db1)
      | some db2 => (Response.json 200 taskUpdatedBody, db2)
    else (Response.json 200 taskUpdatedBody, db1)

/-- Body of the success answer of `PATCH /tasks/:id/archive`. -/
def taskArchivedBody : JVal :=
  JVal.obj [("success", JVal.bool true), ("message", JVal.str "Task archived successfully")]

/-- Body of the 400 answer of `PATCH /tasks/:id/archive`. -/
def cannotArchiveBody : JVal :=
  JVal.obj [("success", JVal.bool false), ("message", JVal.str "Task cannot be archived")]

/-- The guard of the archive route on the task found:
`task.status === "Completed" && task.elderlyConfirmed`. -/
def archivable (task : Rec) : Bool :=
  strictEq (getField task "status") (JVal.str "Completed") &&
    truthy (getField task "elderlyConfirmed")

/-- The route `PATCH /tasks/:id/archive` (ArchiveTask). -/
def archiveTask (taskId : String) (db : Store) : Response × Store :=
  match db.tasks.find? (matchesStrict "id" (JVal.str taskId)) with
  | none => (Response.json 400 cannotArchiveBody, db)
  | some task =>
    if archivable task then
      (Response.json 200 taskArchivedBody,
        { db with
          tasks := updateFirst (matchesStrict "id" (JVal.str taskId))
            (fun t => assign t [("archived", JVal.bool true)]) db.tasks })
    else (Response.json 400 cannotArchiveBody, db)

/-- The route `GET /tasks/:id/messages` (ListMessages). -/
def listMessages (taskId : String) (db : Store) : List Rec :=
  db.messages.filter (matchesStrict "taskId" (JVal.str taskId))

/-- The message `POST /tasks/:id/messages` stores:
`{ ...req.body, taskId: taskId, id: Date.now().toString() }`. -/
def newMessageOf (clock : Nat → Nat) (taskId : String) (body : Rec) : Rec :=
  setField (setField (spread body) "taskId" (JVal.str taskId)) "id"
    (JVal.str (toString (clock 0)))

/-- The route `POST /tasks/:id/messages` (PostMessage).  The message is pushed
before the task is looked up; reading `task.elderlyId` throws when no task has
the id. -/
def postMessage (h : Host) (clock : Nat → Nat) (taskId : String) (body : Rec)
    (db : Store) : Response × Store :=
  let newMessage := newMessageOf clock taskId body
  let db1 : Store := { db with messages := db.messages ++ [newMessage] }
  match db1.tasks.find? (matchesStrict "id" (JVal.str taskId)) with
  | none => (Response.fault, db1)
  | some task =>
    let recipientId :=
      if strictEq (getField newMessage "senderId") (getField task "elderlyId")
      then getField task "volunteerId" else getField task "elderlyId"
    match toStr h (getField task "title") with
    | none => (Response.fault, db1)
    | some title =>
      match createNotification h clock 1 recipientId "New Message"
          (newMessageMessage title) (JVal.str taskId) db1 with
      | none => (Response.fault, db1)
      | some db2 => (Response.json 201 (JVal.obj newMessage), db2)

/-- The numbers of a list that consists of numbers only. -/
def allNums : List JVal → Option (List Rat)
  | [] => some []
  | JVal.num q :: rest =>
    match allNums rest with
    | some qs => some (q :: qs)
    | none => none
  | _ :: _ => none

/-- The position of the leading binary digit of `n`, found in at most `fuel`
halvings: `log2Fuel n n` is the integer part of the binary logarithm of a
positive `n`. -/
def log2Fuel : Nat → Nat → Nat
  | 0, _ => 0
  | fuel + 1, n => if n < 2 then 0 else log2Fuel fuel (n / 2) + 1

/-- The quotient `num / den` rounded to the nearest natural number, a tie going
to the even neighbour. -/
def roundHalfEven (num den : Nat) : Nat :=
  if 2 * (num % den) < den then num / den
  else if den < 2 * (num % den) then num / den + 1
  else if (num / den) % 2 = 0 then num / den else num / den + 1

/-- The integer part of the binary logarithm of `n / d`, for positive `n` and
`d`. -/
def floorLog2 (n d : Nat) : Int :=
  if (if log2Fuel d d ≤ log2Fuel n n then n < d * 2 ^ (log2Fuel n n - log2Fuel d d)
      else n * 2 ^ (log2Fuel d d - log2Fuel n n) < d)
  then (log2Fuel n n : Int) - (log2Fuel d d : Int) - 1
  else (log2Fuel n n : Int) - (log2Fuel d d : Int)

/-- The positive quotient `n / d` rounded to an IEEE-754 binary64 value, to
nearest with ties to even: the last place has the weight `2 ^ e`, 52 binary
places below the leading digit and never below `2 ^ (-1074)`.  The result is
`none` when the rounded value reaches `2 ^ 1024`, where JavaScript yields
`Infinity`. -/
def roundMagnitude (n d : Nat) : Option Rat :=
  let e : Int := max (floorLog2 n d - 52) (-1074)
  let m : Nat :=
    if 0 ≤ e then roundHalfEven n (d * 2 ^ e.toNat) else roundHalfEven (n * 2 ^ (-e).toNat) d
  if 971 < e ∨ (e = 971 ∧ m = 2 ^ 53) then none
  else some (if 0 ≤ e then ((m * 2 ^ e.toNat : Nat) : Rat) else mkRat (m : Int) (2 ^ (-e).toNat))

/-- A rational rounded to the nearest binary64 value, `none` beyond the finite
range. -/
def roundDouble (q : Rat) : Option Rat :=
  if q.num = 0 then some 0
  else
    match roundMagnitude q.num.natAbs q.den with
    | none => none
    | some r => some (if q.num < 0 then -r else r)

/-- The sum `a + b` of two JavaScript numbers: the exact sum, written as one
fraction, rounded to a double. -/
def jsAdd (a b : Rat) : Option Rat :=
  roundDouble (mkRat (a.num * b.den + b.num * a.den) (a.den * b.den))

/-- The quotient `a / n` of a JavaScript number by a positive count: the exact
quotient, written as one fraction, rounded to a double. -/
def jsDivNat (a : Rat) (n : Nat) : Option Rat :=
  roundDouble (mkRat a.num (a.den * n))

/-- The fold `reduce((a, b) => a + b)` from the accumulator `acc` over the
remaining numbers; `none` when a sum leaves the finite range. -/
def sumDoubles : Rat → List Rat → Option Rat
  | acc, [] => some acc
  | acc, q :: qs =>
    match jsAdd acc q with
    | none => none
    | some s => sumDoubles s qs

/-- The number `xs.reduce((a, b) => a + b) / xs.length` for an array of
numbers: the first entry is the initial accumulator, every sum and the final
quotient are rounded to a double.  The result is `none` on the empty array and
when a sum leaves the finite range. -/
def meanDouble : List Rat → Option Rat
  | [] => none
  | q :: qs =>
    match sumDoubles q qs with
    | none => none
    | some s => jsDivNat s (qs.length + 1)

/-- The value of `ratings.reduce((a, b) => a + b) / ratings.length`: on an
array of numbers the mean in double arithmetic, `meanDouble`; `reduce` throws
on the empty array; on an array with other entries, or when a sum leaves the
finite range, what the host computes. -/
def ratingsMean (h : Host) (ratings : List JVal) : Option JVal :=
  match allNums ratings with
  | some [] => none
  | some (q :: qs) =>
    match meanDouble (q :: qs) with
    | some mean => some (JVal.num mean)
    | none => h.mixedMean ratings
  | none => h.mixedMean ratings

/-- Body of the 404 answer of `PATCH /users/:id/rate`. -/
def rateNotFoundBody : JVal :=
  JVal.obj [("error", JVal.str "User or task not found")]

/-- The route `PATCH /users/:id/rate` (RateUser).  The call `user.ratings.push`
throws unless `ratings` is an array; the records are mutated in place in the
order of the source, so a later throw leaves the earlier writes in the store. -/
def rateUser (h : Host) (clock : Nat → Nat) (id : String) (body : Rec)
    (db : Store) : Response × Store :=
  let rating := getField body "rating"
  let taskId := getField body "taskId"
  match db.users.find? (matchesStrict "id" (JVal.str id)),
      db.tasks.find? (matchesProp h "id" taskId) with
  | some user, some task =>
    match getField user "ratings" with
    | JVal.arr rs =>
      let pushed := rs ++ [rating]
      let db1 : Store :=
        { db with
          users := updateFirst (matchesStrict "id" (JVal.str id))
            (fun u => setField u "ratings" (JVal.arr pushed)) db.users }
      match ratingsMean h pushed with
      | none => (Response.fault, db1)
      | some mean =>
        let user2 := setField (setField user "ratings" (JVal.arr pushed)) "averageRating" mean
        let task2 := setField task "rating" rating
        let db2 : Store :=
          { db with
            users := updateFirst (matchesStrict "id" (JVal.str id))
              (fun _ => assign user2 user2) db.users
            tasks := updateFirst (matchesProp h "id" taskId)
              (fun _ => assign task2 task2) db.tasks }
        match toStr h rating, toStr h (getField task2 "title") with
        | some r, some title =>
          match createNotification h clock 0 (getField user2 "id") "New Rating Received"
              (newRatingMessage r title) taskId db2 with
          | none => (Response.fault, db2)
          | some db3 => (Response.json 200 (JVal.obj user2), db3)
        | _, _ => (Response.fault, db2)
    | _ => (Response.fault, db)
  | _, _ => (Response.json 404 rateNotFoundBody, db)

/-- Body of the success answer of `PATCH /notifications/:id`. -/
def markedReadBody : JVal :=
  JVal.obj [("success", JVal.bool true), ("message", JVal.str "Notification marked as read")]

/-- Body of the 404 answer of `PATCH /notifications/:id`. -/
def notificationNotFoundBody : JVal :=
  JVal.obj [("success", JVal.bool false), ("message", JVal.str "Notification not found")]

/-- The route `PATCH /notifications/:id` (MarkRead). -/
def markRead (notificationId : String) (db : Store) : Response × Store :=
  match db.notifications.find? (matchesStrict "id" (JVal.str notificationId)) with
  | none => (Response.json 404 notificationNotFoundBody, db)
  | some _ =>
    (Response.json 200 markedReadBody,
      { db with
        notifications := updateFirst (matchesStrict "id" (JVal.str notificationId))
          (fun n => assign n [("read", JVal.bool true)]) db.notifications })

/-- A request to one of the six state-changing routes, with the clock readings
taken while it is handled. -/
inductive Request where
  | createTask (clock : Nat → Nat) (body : Rec)
  | updateTask (clock : Nat → Nat) (taskId : String) (body : Rec)
  | archiveTask (taskId : String)
  | postMessage (clock : Nat → Nat) (taskId : String) (body : Rec)
  | rateUser (clock : Nat → Nat) (id : String) (body : Rec)
  | markRead (notificationId : String)

/-- One request handled against the store. -/
def step (h : Host) (db : Store) : Request → Response × Store
  | Request.createTask clock body => createTask h clock body db
  | Request.updateTask clock taskId body => updateTask h clock taskId body db
  | Request.archiveTask taskId => archiveTask taskId db
  | Request.postMessage clock taskId body => postMessage h clock taskId body db
  | Request.rateUser clock id body => rateUser h clock id body db
  | Request.markRead notificationId => markRead notificationId db

/-- The store after a sequence of requests, handled one after the other. -/
def run (h : Host) : Store → List Request → Store
  | db, [] => db
  | db, r :: rs => run h (step h db r).2 rs

/-- The test `task.archived === true`. -/
def isArchived (task : Rec) : Bool :=
  strictEq (getField task "archived") (JVal.bool true)

/-- The titles of the notifications that the rule selected by the if-chain of
`PATCH /tasks/:id` writes when it runs to its end; the chain tests the request
body only. -/
def ruleTitles (body : Rec) : List JVal :=
  if strictEq (getField body "status") (JVal.str "Accepted") then [JVal.str "Task Accepted"]
  else if strictEq (getField body "status") (JVal.str "Completed") then
    [JVal.str "Task Completed", JVal.str "Task Completed"]
  else if truthy (getField body "elderlyConfirmed") && truthy (getField body "rating") then
    [JVal.str "Task Rated"]
  else []

/-- A host for evaluating the handlers on concrete inputs: integers render in
decimal, other rationals as numerator over denominator; timestamps render as
their millisecond count; the deep comparison and the mixed mean are trivial. -/
def refHost : Host where
  numToString := fun q => if q.den = 1 then toString q.num else toString q.num ++ "/" ++ toString q.den
  toISOString := fun t => toString t
  isEqualDeep := fun _ _ => false
  mixedMean := fun _ => none

/-! ## Records -/

theorem getField_setField_same (r : Rec) (k : String) (v : JVal) :
    getField (setField r k v) k = v := by
  induction r with
  | nil => simp [setField, getField]
  | cons e rest ih =>
    obtain ⟨k', v'⟩ := e
    by_cases hk : k' = k
    · simp [setField, getField, hk]
    · simp [setField, getField, hk, ih]

theorem getField_setField_ne (r : Rec) (k k' : String) (v : JVal) (hne : k' ≠ k) :
    getField (setField r k v) k' = getField r k' := by
  induction r with
  | nil => simp [setField, getField, Ne.symm hne]
  | cons e rest ih =>
    obtain ⟨k₀, v₀⟩ := e
    by_cases hk : k₀ = k
    · subst hk
      simp [setField, getField, Ne.symm hne]
    · by_cases hk' : k₀ = k'
      · subst hk'
        simp [setField, getField, hk]
      · simp [setField, getField, hk, hk', ih]

theorem hasField_setField (r : Rec) (k k' : String) (v : JVal) :
    hasField (setField r k v) k' = (decide (k' = k) || hasField r k') := by
  induction r with
  | nil =>
    by_cases hk : k = k'
    · simp [setField, hasField, hk]
    · simp [setField, hasField, hk, Ne.symm hk]
  | cons e rest ih =>
    obtain ⟨k₀, v₀⟩ := e
    by_cases hk : k₀ = k
    · subst hk
      by_cases hk' : k₀ = k'
      · simp [setField, hasField, hk']
      · simp [setField, hasField, hk', Ne.symm hk']
    · by_cases hk' : k₀ = k'
      · subst hk'
        simp [setField, hasField, hk]
      · simp [setField, hasField, hk, hk', ih]

theorem getField_of_hasField_false (r : Rec) (k : String) (hk : hasField r k = false) :
    getField r k = JVal.undefined := by
  induction r with
  | nil => rfl
  | cons e rest ih =>
    obtain ⟨k₀, v₀⟩ := e
    by_cases h0 : k₀ = k
    · simp [hasField, h0] at hk
    · simp only [hasField, h0, if_false] at hk
      simp [getField, h0, ih hk]

theorem hasField_eq_true_iff (r : Rec) (k : String) :
    hasField r k = true ↔ k ∈ r.map Prod.fst := by
  induction r with
  | nil => simp [hasField]
  | cons e rest ih =>
    obtain ⟨k₀, v₀⟩ := e
    by_cases h0 : k₀ = k
    · simp [hasField, h0]
    · simp [hasField, h0, ih, Ne.symm h0]

theorem getField_assignKeys (s : Rec) (ks : List String) (t : Rec) (k : String) :
    getField (assignKeys s ks t) k = if k ∈ ks then getField s k else getField t k := by
  induction ks generalizing t with
  | nil => simp [assignKeys]
  | cons k₀ ks ih =>
    simp only [assignKeys, ih, List.mem_cons]
    by_cases hin : k ∈ ks
    · simp [hin]
    · by_cases h0 : k = k₀
      · subst h0
        simp [hin, getField_setField_same]
      · simp [hin, h0, getField_setField_ne _ _ _ _ h0]

theorem hasField_assignKeys (s : Rec) (ks : List String) (t : Rec) (k : String) :
    hasField (assignKeys s ks t) k = (decide (k ∈ ks) || hasField t k) := by
  induction ks generalizing t with
  | nil => simp [assignKeys]
  | cons k₀ ks ih =>
    simp only [assignKeys, ih, List.mem_cons, hasField_setField]
    by_cases hin : k ∈ ks <;> by_cases h0 : k = k₀ <;> simp [hin, h0]

/-- Reading a field after `Object.assign`: the source's value where the source
names the field, the target's value elsewhere. -/
theorem getField_assign (t s : Rec) (k : String) :
    getField (assign t s) k = if hasField s k = true then getField s k else getField t k := by
  unfold assign
  rw [getField_assignKeys]
  simp only [hasField_eq_true_iff]

theorem hasField_assign (t s : Rec) (k : String) :
    hasField (assign t s) k = (hasField s k || hasField t k) := by
  unfold assign
  rw [hasField_assignKeys]
  by_cases hk : hasField s k = true
  · have := (hasField_eq_true_iff s k).1 hk
    simp [hk, this]
  · have hn : ¬ k ∈ s.map Prod.fst := fun hm => hk ((hasField_eq_true_iff s k).2 hm)
    simp only [Bool.not_eq_true] at hk
    simp [hk, hn]

theorem getField_spread (s : Rec) (k : String) : getField (spread s) k = getField s k := by
  unfold spread
  rw [getField_assign]
  by_cases hk : hasField s k = true
  · simp [hk]
  · simp only [Bool.not_eq_true] at hk
    simp [hk, getField_of_hasField_false s k hk, getField]

theorem hasField_spread (s : Rec) (k : String) : hasField (spread s) k = hasField s k := by
  unfold spread
  rw [hasField_assign]
  simp [hasField]

/-- Reading a field after the merge `assign(task, { ...body })`. -/
theorem getField_merge (t body : Rec) (k : String) :
    getField (assign t (spread body)) k =
      if hasField body k = true then getField body k else getField t k := by
  rw [getField_assign, hasField_spread, getField_spread]

/-! ## Collections -/

theorem updateFirst_of_find_none (p : Rec → Bool) (f : Rec → Rec) (l : List Rec)
    (hf : l.find? p = none) : updateFirst p f l = l := by
  induction l with
  | nil => rfl
  | cons r rs ih =>
    by_cases hp : p r = true
    · simp [List.find?, hp] at hf
    · simp only [Bool.not_eq_true] at hp
      simp only [List.find?, hp] at hf
      simp [updateFirst, hp, ih hf]

theorem updateFirst_of_find_some (p : Rec → Bool) (f : Rec → Rec) (l : List Rec) (t : Rec)
    (hf : l.find? p = some t) :
    ∃ pre post, l = pre ++ t :: post ∧ (∀ r ∈ pre, p r = false) ∧ p t = true ∧
      updateFirst p f l = pre ++ f t :: post := by
  induction l with
  | nil => simp at hf
  | cons r rs ih =>
    by_cases hp : p r = true
    · simp only [List.find?, hp, Option.some.injEq] at hf
      subst hf
      exact ⟨[], rs, rfl, by simp, hp, by simp [updateFirst, hp]⟩
    · simp only [Bool.not_eq_true] at hp
      simp only [List.find?, hp] at hf
      obtain ⟨pre, post, h1, h2, h3, h4⟩ := ih hf
      refine ⟨r :: pre, post, by simp [h1], ?_, h3, by simp [updateFirst, hp, h4]⟩
      intro x hx
      rcases List.mem_cons.1 hx with hx | hx
      · subst hx
        exact hp
      · exact h2 x hx

/-! ## CreateTask -/

/-- The fan-out loop when every interpolated value renders: one notification
per volunteer, in order, and nothing else changes. -/
theorem notifyVolunteers_renders (h : Host) (clock : Nat → Nat) (newTask : Rec)
    (vs : List Rec) (k : Nat) (db : Store)
    (hr : ∀ v ∈ vs, (toStr h (getField newTask "title")).isSome = true ∧
      (toStr h (getField v "id")).isSome = true) :
    ∃ ns, notifyVolunteers h clock newTask vs k db =
        (true, { db with notifications := db.notifications ++ ns }) ∧
      List.Forall₂ (fun v n => getField n "userId" = getField v "id" ∧
        getField n "title" = JVal.str "New Task Available" ∧
        getField n "taskId" = getField newTask "id") vs ns := by
  induction vs generalizing k db with
  | nil => exact ⟨[], by simp [notifyVolunteers], List.Forall₂.nil⟩
  | cons v rest ih =>
    obtain ⟨ht, hv⟩ := hr v (List.mem_cons_self _ _)
    obtain ⟨title, htitle⟩ := Option.isSome_iff_exists.1 ht
    obtain ⟨vid, hvid⟩ := Option.isSome_iff_exists.1 hv
    obtain ⟨ns, hns, hall⟩ := ih (k + 2)
      { db with notifications := db.notifications ++
          [newNotification h (clock k) (clock (k + 1)) (getField v "id") "New Task Available"
            (newTaskMessage title) (getField newTask "id")] }
      (fun w hw => hr w (List.mem_cons_of_mem _ hw))
    refine ⟨newNotification h (clock k) (clock (k + 1)) (getField v "id") "New Task Available"
      (newTaskMessage title) (getField newTask "id") :: ns, ?_, ?_⟩
    · simp [notifyVolunteers, htitle, hvid, createNotification, hns]
    · exact List.Forall₂.cons ⟨by simp [newNotification, getField],
        by simp [newNotification, getField], by simp [newNotification, getField]⟩ hall

theorem getField_newTaskOf_id (clock : Nat → Nat) (body : Rec) :
    getField (newTaskOf clock body) "id" = JVal.str (toString (clock 0)) := by
  simp [newTaskOf, getField_setField_same]

theorem getField_newTaskOf_ne (clock : Nat → Nat) (body : Rec) (k : String) (hk : k ≠ "id") :
    getField (newTaskOf clock body) k = getField body k := by
  simp [newTaskOf, getField_setField_ne _ _ _ _ hk, getField_spread]

/-- C1, amended: when the title of the body and the id of every volunteer can
be rendered as text, `POST /tasks` answers 201 with the stored task, whose id
is the fresh one, and appends to the notifications exactly one record per user
whose `userType` is `"volunteer"`, in store order, addressed to that user's id,
titled "New Task Available" and carrying the new task's id.  With no volunteer
the condition is void and the notifications are unchanged. -/
theorem createTask_fanOut (h : Host) (clock : Nat → Nat) (body : Rec) (db : Store)
    (hr : ∀ v ∈ volunteersOf db, (toStr h (getField body "title")).isSome = true ∧
      (toStr h (getField v "id")).isSome = true) :
    ∃ ns, createTask h clock body db =
        (Response.json 201 (JVal.obj (newTaskOf clock body)),
          { db with
            tasks := db.tasks ++ [newTaskOf clock body]
            notifications := db.notifications ++ ns }) ∧
      getField (newTaskOf clock body) "id" = JVal.str (toString (clock 0)) ∧
      ns.length = (volunteersOf db).length ∧
      (volunteersOf db = [] → ns = []) ∧
      List.Forall₂ (fun v n => getField n "userId" = getField v "id" ∧
        getField n "title" = JVal.str "New Task Available" ∧
        getField n "taskId" = JVal.str (toString (clock 0))) (volunteersOf db) ns := by
  have hr' : ∀ v ∈ volunteersOf db,
      (toStr h (getField (newTaskOf clock body) "title")).isSome = true ∧
        (toStr h (getField v "id")).isSome = true := by
    intro v hv
    rw [getField_newTaskOf_ne clock body "title" (by decide)]
    exact hr v hv
  obtain ⟨ns, hns, hall⟩ := notifyVolunteers_renders h clock (newTaskOf clock body)
    (volunteersOf db) 1 { db with tasks := db.tasks ++ [newTaskOf clock body] } hr'
  rw [getField_newTaskOf_id] at hall
  refine ⟨ns, ?_, getField_newTaskOf_id clock body, (List.Forall₂.length_eq hall).symm, ?_, hall⟩
  · have hv : volunteersOf { db with tasks := db.tasks ++ [newTaskOf clock body] } =
        volunteersOf db := rfl
    simp only [createTask, hv, hns]
  · intro hnil
    rw [hnil] at hall
    cases hall
    rfl

/-- C1, witness: two volunteers and one elderly user in the store. -/
theorem createTask_fanOut_witness :
    ∃ ns, createTask refHost (fun n => 1000 + n) [("title", JVal.str "Shopping")]
        ⟨[], [[("id", JVal.str "u1"), ("userType", JVal.str "volunteer")],
              [("id", JVal.str "u2"), ("userType", JVal.str "elderly")],
              [("id", JVal.str "u3"), ("userType", JVal.str "volunteer")]], [], []⟩ =
        (Response.json 201 (JVal.obj [("title", JVal.str "Shopping"), ("id", JVal.str "1000")]),
          ⟨[[("title", JVal.str "Shopping"), ("id", JVal.str "1000")]],
            [[("id", JVal.str "u1"), ("userType", JVal.str "volunteer")],
              [("id", JVal.str "u2"), ("userType", JVal.str "elderly")],
              [("id", JVal.str "u3"), ("userType", JVal.str "volunteer")]], [], ns⟩) ∧
      ns.length = 2 := by
  obtain ⟨ns, h1, _, h3, _, _⟩ := createTask_fanOut refHost (fun n => 1000 + n)
    [("title", JVal.str "Shopping")]
    ⟨[], [[("id", JVal.str "u1"), ("userType", JVal.str "volunteer")],
          [("id", JVal.str "u2"), ("userType", JVal.str "elderly")],
          [("id", JVal.str "u3"), ("userType", JVal.str "volunteer")]], [], []⟩
    (by
      intro v hv
      have hvs : volunteersOf ⟨[], [[("id", JVal.str "u1"), ("userType", JVal.str "volunteer")],
          [("id", JVal.str "u2"), ("userType", JVal.str "elderly")],
          [("id", JVal.str "u3"), ("userType", JVal.str "volunteer")]], [], []⟩ =
          [[("id", JVal.str "u1"), ("userType", JVal.str "volunteer")],
           [("id", JVal.str "u3"), ("userType", JVal.str "volunteer")]] := rfl
      rw [hvs] at hv
      simp only [List.mem_cons, List.mem_singleton, List.not_mem_nil, or_false] at hv
      rcases hv with rfl | rfl <;> exact ⟨rfl, rfl⟩)
  exact ⟨ns, h1, h3⟩

/-- C1, counterexample: one volunteer exists, the body's title is an object
with an own `toString` entry.  The message template throws inside the `try`,
the error is caught and logged, and the request ends with 201 and no
notification at all. -/
theorem createTask_fanOut_counterexample :
    (volunteersOf ⟨[], [[("id", JVal.str "u1"), ("userType", JVal.str "volunteer")]], [], []⟩).length = 1 ∧
    createTask refHost (fun n => 1000 + n) [("title", JVal.obj [("toString", JVal.null)])]
        ⟨[], [[("id", JVal.str "u1"), ("userType", JVal.str "volunteer")]], [], []⟩ =
      (Response.json 201
          (JVal.obj [("title", JVal.obj [("toString", JVal.null)]), ("id", JVal.str "1000")]),
        ⟨[[("title", JVal.obj [("toString", JVal.null)]), ("id", JVal.str "1000")]],
          [[("id", JVal.str "u1"), ("userType", JVal.str "volunteer")]], [], []⟩) :=
  ⟨rfl, rfl⟩

/-! ## UpdateTask -/

theorem strictEq_str_iff (v : JVal) (s : String) :
    strictEq v (JVal.str s) = true ↔ v = JVal.str s := by
  cases v <;> simp [strictEq]

theorem getField_id_of_matchesStrict (id : String) (r : Rec)
    (hm : matchesStrict "id" (JVal.str id) r = true) : getField r "id" = JVal.str id := by
  simp only [matchesStrict, Bool.and_eq_true] at hm
  exact (strictEq_str_iff _ _).1 hm.1

theorem createNotification_of_renders (h : Host) (clock : Nat → Nat) (k : Nat) (userId : JVal)
    (title message : String) (taskId : JVal) (db : Store) (s : String)
    (hu : toStr h userId = some s) :
    createNotification h clock k userId title message taskId db =
      some { db with
        notifications := db.notifications ++
          [newNotification h (clock k) (clock (k + 1)) userId title message taskId] } := by
  simp [createNotification, hu]

/-- C2, amended: on an existing task, a patch whose status is "Completed"
appends exactly two notifications whenever the title, the `elderlyId` and the
`volunteerId` of the merged record can be rendered as text.  The first is
addressed to the merged record's `elderlyId`, the second to its `volunteerId`;
both are titled "Task Completed" and carry the id under which the task was
found, which is also the id of the merged record unless the patch renames it.
The merged record takes the place of the found one in the tasks collection. -/
theorem updateTask_completed (h : Host) (clock : Nat → Nat) (taskId : String) (body : Rec)
    (db : Store) (found : Rec) (title elderly volunteer : String)
    (hfind : db.tasks.find? (matchesStrict "id" (JVal.str taskId)) = some found)
    (hstatus : getField body "status" = JVal.str "Completed")
    (htitle : toStr h (getField (assign found (spread body)) "title") = some title)
    (helderly : toStr h (getField (assign found (spread body)) "elderlyId") = some elderly)
    (hvolunteer : toStr h (getField (assign found (spread body)) "volunteerId") = some volunteer) :
    ∃ n1 n2 pre post,
      updateTask h clock taskId body db =
        (Response.json 200 taskUpdatedBody,
          { db with
            tasks := pre ++ assign found (spread body) :: post
            notifications := db.notifications ++ [n1, n2] }) ∧
      db.tasks = pre ++ found :: post ∧
      getField n1 "userId" = getField (assign found (spread body)) "elderlyId" ∧
      getField n2 "userId" = getField (assign found (spread body)) "volunteerId" ∧
      getField n1 "title" = JVal.str "Task Completed" ∧
      getField n2 "title" = JVal.str "Task Completed" ∧
      getField n1 "taskId" = JVal.str taskId ∧
      getField n2 "taskId" = JVal.str taskId ∧
      getField found "id" = JVal.str taskId ∧
      (hasField body "id" = false →
        getField (assign found (spread body)) "id" = JVal.str taskId) := by
  obtain ⟨pre, post, hsplit, _, hp, hupd⟩ :=
    updateFirst_of_find_some (matchesStrict "id" (JVal.str taskId))
      (fun t => assign t (spread body)) db.tasks found hfind
  have hid := getField_id_of_matchesStrict taskId found hp
  refine ⟨newNotification h (clock 0) (clock 1) (getField (assign found (spread body)) "elderlyId")
      "Task Completed" (completedElderlyMessage title) (JVal.str taskId),
    newNotification h (clock 2) (clock 3) (getField (assign found (spread body)) "volunteerId")
      "Task Completed" (completedVolunteerMessage title) (JVal.str taskId),
    pre, post, ?_, hsplit, rfl, rfl, rfl, rfl, rfl, rfl, hid, ?_⟩
  · simp [updateTask, hfind, hstatus, strictEq, notifyCompleted, htitle, createNotification,
      helderly, hvolunteer, hupd]
  · intro hno
    rw [getField_merge, hno]
    simpa using hid

/-- C2, witness: a "Completed" patch that also names the volunteer, the
confirmation and a rating. -/
theorem updateTask_completed_witness :
    ∃ n1 n2 pre post,
      updateTask refHost (fun n => 1000 + n) "1"
          [("status", JVal.str "Completed"), ("volunteerId", JVal.str "v1"),
            ("elderlyConfirmed", JVal.bool true), ("rating", JVal.num 5)]
          ⟨[[("id", JVal.str "1"), ("title", JVal.str "Walk"), ("elderlyId", JVal.str "e1")]],
            [], [], []⟩ =
        (Response.json 200 taskUpdatedBody,
          ⟨pre ++ [("id", JVal.str "1"), ("title", JVal.str "Walk"), ("elderlyId", JVal.str "e1"),
              ("status", JVal.str "Completed"), ("volunteerId", JVal.str "v1"),
              ("elderlyConfirmed", JVal.bool true), ("rating", JVal.num 5)] :: post,
            [], [], [] ++ [n1, n2]⟩) ∧
      getField n1 "userId" = JVal.str "e1" ∧ getField n2 "userId" = JVal.str "v1" := by
  obtain ⟨n1, n2, pre, post, h1, _, h3, h4, _⟩ :=
    updateTask_completed refHost (fun n => 1000 + n) "1"
      [("status", JVal.str "Completed"), ("volunteerId", JVal.str "v1"),
        ("elderlyConfirmed", JVal.bool true), ("rating", JVal.num 5)]
      ⟨[[("id", JVal.str "1"), ("title", JVal.str "Walk"), ("elderlyId", JVal.str "e1")]],
        [], [], []⟩
      [("id", JVal.str "1"), ("title", JVal.str "Walk"), ("elderlyId", JVal.str "e1")]
      "Walk" "e1" "v1" rfl rfl rfl rfl rfl
  exact ⟨n1, n2, pre, post, h1, h3, h4⟩

/-- C2, counterexample: first, the patch sets status "Completed" and a
`volunteerId` that is an object with an own `toString` entry: the notification
to the requester is written, the second call of `createNotification` throws at
its log line, so exactly one notification is appended and the request ends
with a 500.  Second, the patch sets status "Completed" and a new `id`: both
notifications carry the id of the request path, "1", while the updated record's
id is "2". -/
theorem updateTask_completed_counterexample :
    updateTask refHost (fun n => 1000 + n) "1"
        [("status", JVal.str "Completed"), ("volunteerId", JVal.obj [("toString", JVal.null)])]
        ⟨[[("id", JVal.str "1"), ("title", JVal.str "Walk"), ("elderlyId", JVal.str "e1")]],
          [], [], []⟩ =
      (Response.fault,
        ⟨[[("id", JVal.str "1"), ("title", JVal.str "Walk"), ("elderlyId", JVal.str "e1"),
            ("status", JVal.str "Completed"),
            ("volunteerId", JVal.obj [("toString", JVal.null)])]],
          [], [],
          [newNotification refHost 1000 1001 (JVal.str "e1") "Task Completed"
            (completedElderlyMessage "Walk") (JVal.str "1")]⟩) ∧
    updateTask refHost (fun n => 1000 + n) "1"
        [("status", JVal.str "Completed"), ("id", JVal.str "2")]
        ⟨[[("id", JVal.str "1"), ("title", JVal.str "Walk"), ("elderlyId", JVal.str "e1"),
            ("volunteerId", JVal.str "v1")]],
          [], [], []⟩ =
      (Response.json 200 taskUpdatedBody,
        ⟨[[("id", JVal.str "2"), ("title", JVal.str "Walk"), ("elderlyId", JVal.str "e1"),
            ("volunteerId", JVal.str "v1"), ("status", JVal.str "Completed")]],
          [], [],
          [newNotification refHost 1000 1001 (JVal.str "e1") "Task Completed"
            (completedElderlyMessage "Walk") (JVal.str "1"),
           newNotification refHost 1002 1003 (JVal.str "v1") "Task Completed"
            (completedVolunteerMessage "Walk") (JVal.str "1")]⟩) :=
  ⟨rfl, rfl⟩

/-- C3, amended: on an existing task, a patch whose status is "Accepted" and
whose `volunteerId` selects a user appends exactly one notification whenever
the merged record's title and `elderlyId` and the volunteer's `firstName` and
`lastName` can be rendered as text.  It is addressed to the merged record's
`elderlyId`, titled "Task Accepted", its message is the acceptance text with
the rendered first and last name, and it carries the id under which the task
was found.  No other field of the patch matters. -/
theorem updateTask_accepted (h : Host) (clock : Nat → Nat) (taskId : String) (body : Rec)
    (db : Store) (found volunteer : Rec) (title firstName lastName elderly : String)
    (hfind : db.tasks.find? (matchesStrict "id" (JVal.str taskId)) = some found)
    (hstatus : getField body "status" = JVal.str "Accepted")
    (hvol : db.users.find? (matchesProp h "id" (getField body "volunteerId")) = some volunteer)
    (htitle : toStr h (getField (assign found (spread body)) "title") = some title)
    (hfirst : toStr h (getField volunteer "firstName") = some firstName)
    (hlast : toStr h (getField volunteer "lastName") = some lastName)
    (helderly : toStr h (getField (assign found (spread body)) "elderlyId") = some elderly) :
    ∃ n pre post,
      updateTask h clock taskId body db =
        (Response.json 200 taskUpdatedBody,
          { db with
            tasks := pre ++ assign found (spread body) :: post
            notifications := db.notifications ++ [n] }) ∧
      db.tasks = pre ++ found :: post ∧
      getField n "userId" = getField (assign found (spread body)) "elderlyId" ∧
      getField n "title" = JVal.str "Task Accepted" ∧
      getField n "message" = JVal.str (acceptedMessage title firstName lastName) ∧
      getField n "taskId" = JVal.str taskId ∧
      getField found "id" = JVal.str taskId := by
  obtain ⟨pre, post, hsplit, _, hp, hupd⟩ :=
    updateFirst_of_find_some (matchesStrict "id" (JVal.str taskId))
      (fun t => assign t (spread body)) db.tasks found hfind
  refine ⟨newNotification h (clock 0) (clock 1) (getField (assign found (spread body)) "elderlyId")
      "Task Accepted" (acceptedMessage title firstName lastName) (JVal.str taskId),
    pre, post, ?_, hsplit, rfl, rfl, rfl, rfl, getField_id_of_matchesStrict taskId found hp⟩
  simp [updateTask, hfind, hstatus, strictEq, notifyAccepted, hvol, htitle, hfirst, hlast,
    createNotification, helderly, hupd]

/-- C3, witness: the patch also carries a confirmation and a rating; only the
"Task Accepted" notification is written. -/
theorem updateTask_accepted_witness :
    ∃ n pre post,
      updateTask refHost (fun n => 1000 + n) "1"
          [("status", JVal.str "Accepted"), ("volunteerId", JVal.str "v1"),
            ("elderlyConfirmed", JVal.bool true), ("rating", JVal.num 5)]
          ⟨[[("id", JVal.str "1"), ("title", JVal.str "Walk"), ("elderlyId", JVal.str "e1")]],
            [[("id", JVal.str "v1"), ("firstName", JVal.str "Ada"), ("lastName", JVal.str "Cohen")]],
            [], []⟩ =
        (Response.json 200 taskUpdatedBody,
          ⟨pre ++ [("id", JVal.str "1"), ("title", JVal.str "Walk"), ("elderlyId", JVal.str "e1"),
              ("status", JVal.str "Accepted"), ("volunteerId", JVal.str "v1"),
              ("elderlyConfirmed", JVal.bool true), ("rating", JVal.num 5)] :: post,
            [[("id", JVal.str "v1"), ("firstName", JVal.str "Ada"), ("lastName", JVal.str "Cohen")]],
            [], [] ++ [n]⟩) ∧
      getField n "userId" = JVal.str "e1" ∧
      getField n "message" = JVal.str (acceptedMessage "Walk" "Ada" "Cohen") := by
  obtain ⟨n, pre, post, h1, _, h3, _, h5, _⟩ :=
    updateTask_accepted refHost (fun n => 1000 + n) "1"
      [("status", JVal.str "Accepted"), ("volunteerId", JVal.str "v1"),
        ("elderlyConfirmed", JVal.bool true), ("rating", JVal.num 5)]
      ⟨[[("id", JVal.str "1"), ("title", JVal.str "Walk"), ("elderlyId", JVal.str "e1")]],
        [[("id", JVal.str "v1"), ("firstName", JVal.str "Ada"), ("lastName", JVal.str "Cohen")]],
        [], []⟩
      [("id", JVal.str "1"), ("title", JVal.str "Walk"), ("elderlyId", JVal.str "e1")]
      [("id", JVal.str "v1"), ("firstName", JVal.str "Ada"), ("lastName", JVal.str "Cohen")]
      "Walk" "Ada" "Cohen" "e1" rfl rfl rfl rfl rfl rfl rfl
  exact ⟨n, pre, post, h1, h3, h5⟩

/-- C3, counterexample: the volunteer exists, and the `lastName` stored for
them is an object with an own `toString` entry.  The message template throws,
no notification is written and the request ends with a 500, the merge already
being in the store. -/
theorem updateTask_accepted_counterexample :
    updateTask refHost (fun n => 1000 + n) "1"
        [("status", JVal.str "Accepted"), ("volunteerId", JVal.str "v1")]
        ⟨[[("id", JVal.str "1"), ("title", JVal.str "Walk"), ("elderlyId", JVal.str "e1")]],
          [[("id", JVal.str "v1"), ("firstName", JVal.str "Ada"),
            ("lastName", JVal.obj [("toString", JVal.null)])]],
          [], []⟩ =
      (Response.fault,
        ⟨[[("id", JVal.str "1"), ("title", JVal.str "Walk"), ("elderlyId", JVal.str "e1"),
            ("status", JVal.str "Accepted"), ("volunteerId", JVal.str "v1")]],
          [[("id", JVal.str "v1"), ("firstName", JVal.str "Ada"),
            ("lastName", JVal.obj [("toString", JVal.null)])]],
          [], []⟩) :=
  rfl

/-- C4: on an existing task, a patch whose status is "Accepted" and whose
`volunteerId` (present or absent) selects no user ends with the 500 of an
uncaught error; the merge has been written, and the notifications are
unchanged. -/
theorem updateTask_accepted_unknown_volunteer (h : Host) (clock : Nat → Nat) (taskId : String)
    (body : Rec) (db : Store) (found : Rec)
    (hfind : db.tasks.find? (matchesStrict "id" (JVal.str taskId)) = some found)
    (hstatus : getField body "status" = JVal.str "Accepted")
    (hvol : db.users.find? (matchesProp h "id" (getField body "volunteerId")) = none) :
    (updateTask h clock taskId body db).1 = Response.fault ∧
      (updateTask h clock taskId body db).2.notifications = db.notifications := by
  have hrule : ∀ task db1, db1.users = db.users →
      notifyAccepted h clock taskId (getField body "volunteerId") task db1 = none := by
    intro task db1 husers
    simp [notifyAccepted, husers, hvol]
  have hres : updateTask h clock taskId body db =
      (Response.fault,
        { db with
          tasks := updateFirst (matchesStrict "id" (JVal.str taskId))
            (fun t => assign t (spread body)) db.tasks }) := by
    simp [updateTask, hfind, hstatus, strictEq, hrule]
  rw [hres]
  exact ⟨rfl, rfl⟩

/-- C4, witness: the patch names no `volunteerId` at all, and a user exists. -/
theorem updateTask_accepted_unknown_volunteer_witness :
    (updateTask refHost (fun n => 1000 + n) "1" [("status", JVal.str "Accepted")]
        ⟨[[("id", JVal.str "1"), ("title", JVal.str "Walk"), ("elderlyId", JVal.str "e1")]],
          [[("id", JVal.str "v1"), ("firstName", JVal.str "Ada")]], [], []⟩).1 = Response.fault ∧
      (updateTask refHost (fun n => 1000 + n) "1" [("status", JVal.str "Accepted")]
        ⟨[[("id", JVal.str "1"), ("title", JVal.str "Walk"), ("elderlyId", JVal.str "e1")]],
          [[("id", JVal.str "v1"), ("firstName", JVal.str "Ada")]], [], []⟩).2.notifications = [] :=
  updateTask_accepted_unknown_volunteer refHost (fun n => 1000 + n) "1"
    [("status", JVal.str "Accepted")]
    ⟨[[("id", JVal.str "1"), ("title", JVal.str "Walk"), ("elderlyId", JVal.str "e1")]],
      [[("id", JVal.str "v1"), ("firstName", JVal.str "Ada")]], [], []⟩
    [("id", JVal.str "1"), ("title", JVal.str "Walk"), ("elderlyId", JVal.str "e1")]
    rfl rfl rfl

/-! ## ArchiveTask -/

/-- C5, amended: `PATCH /tasks/:id/archive` answers with success exactly when
the first task carrying the id exists, has status "Completed" and a truthy
`elderlyConfirmed` (any value other than `false`, `0`, the empty string, `null`
and `undefined`).  On success that task's `archived` field becomes `true`,
every other field of it and every other record of the store is unchanged; in
every other case the answer is the 400 failure and the store is unchanged. -/
theorem archiveTask_spec (taskId : String) (db : Store) :
    ((archiveTask taskId db).1 = Response.json 200 taskArchivedBody ↔
      ∃ task, db.tasks.find? (matchesStrict "id" (JVal.str taskId)) = some task ∧
        getField task "status" = JVal.str "Completed" ∧
        truthy (getField task "elderlyConfirmed") = true) ∧
    (∀ task, db.tasks.find? (matchesStrict "id" (JVal.str taskId)) = some task →
      getField task "status" = JVal.str "Completed" →
      truthy (getField task "elderlyConfirmed") = true →
      ∃ pre post archivedTask,
        db.tasks = pre ++ task :: post ∧
        archiveTask taskId db =
          (Response.json 200 taskArchivedBody,
            { db with tasks := pre ++ archivedTask :: post }) ∧
        getField archivedTask "archived" = JVal.bool true ∧
        ∀ k, k ≠ "archived" → getField archivedTask k = getField task k) ∧
    ((archiveTask taskId db).1 ≠ Response.json 200 taskArchivedBody →
      archiveTask taskId db = (Response.json 400 cannotArchiveBody, db)) := by
  refine ⟨?_, ?_, ?_⟩
  · constructor
    · intro hok
      cases hf : db.tasks.find? (matchesStrict "id" (JVal.str taskId)) with
      | none => simp [archiveTask, hf] at hok
      | some task =>
        by_cases ha : archivable task = true
        · simp only [archivable, Bool.and_eq_true, strictEq_str_iff] at ha
          exact ⟨task, rfl, ha.1, ha.2⟩
        · simp [archiveTask, hf, ha] at hok
    · rintro ⟨task, hf, hs, hc⟩
      have ha : archivable task = true := by
        simp [archivable, hs, hc, strictEq]
      simp [archiveTask, hf, ha]
  · intro task hf hs hc
    have ha : archivable task = true := by
      simp [archivable, hs, hc, strictEq]
    obtain ⟨pre, post, hsplit, _, _, hupd⟩ :=
      updateFirst_of_find_some (matchesStrict "id" (JVal.str taskId))
        (fun t => assign t [("archived", JVal.bool true)]) db.tasks task hf
    refine ⟨pre, post, assign task [("archived", JVal.bool true)], hsplit, ?_, ?_, ?_⟩
    · simp [archiveTask, hf, ha, hupd]
    · simp [getField_assign, hasField, getField]
    · intro k hk
      simp [getField_assign, hasField, Ne.symm hk]
  · intro hne
    cases hf : db.tasks.find? (matchesStrict "id" (JVal.str taskId)) with
    | none => simp [archiveTask, hf]
    | some task =>
      by_cases ha : archivable task = true
      · simp [archiveTask, hf, ha] at hne
      · simp [archiveTask, hf, ha]

/-- C5, witness: a completed and confirmed task is archived in place. -/
theorem archiveTask_spec_witness :
    ∃ pre post archivedTask,
      [[("id", JVal.str "1"), ("status", JVal.str "Completed"),
        ("elderlyConfirmed", JVal.bool true)]] =
          pre ++ [("id", JVal.str "1"), ("status", JVal.str "Completed"),
            ("elderlyConfirmed", JVal.bool true)] :: post ∧
      archiveTask "1" ⟨[[("id", JVal.str "1"), ("status", JVal.str "Completed"),
          ("elderlyConfirmed", JVal.bool true)]], [], [], []⟩ =
        (Response.json 200 taskArchivedBody, ⟨pre ++ archivedTask :: post, [], [], []⟩) ∧
      getField archivedTask "archived" = JVal.bool true ∧
      ∀ k, k ≠ "archived" → getField archivedTask k =
        getField [("id", JVal.str "1"), ("status", JVal.str "Completed"),
          ("elderlyConfirmed", JVal.bool true)] k :=
  (archiveTask_spec "1" ⟨[[("id", JVal.str "1"), ("status", JVal.str "Completed"),
    ("elderlyConfirmed", JVal.bool true)]], [], [], []⟩).2.1
    [("id", JVal.str "1"), ("status", JVal.str "Completed"), ("elderlyConfirmed", JVal.bool true)]
    rfl rfl rfl

/-- C5, counterexample: the task is completed and its `elderlyConfirmed` is the
string "yes", not the boolean `true`; the archive request succeeds and sets
`archived`. -/
theorem archiveTask_counterexample :
    getField [("id", JVal.str "1"), ("status", JVal.str "Completed"),
      ("elderlyConfirmed", JVal.str "yes")] "elderlyConfirmed" ≠ JVal.bool true ∧
    archiveTask "1" ⟨[[("id", JVal.str "1"), ("status", JVal.str "Completed"),
        ("elderlyConfirmed", JVal.str "yes")]], [], [], []⟩ =
      (Response.json 200 taskArchivedBody,
        ⟨[[("id", JVal.str "1"), ("status", JVal.str "Completed"),
          ("elderlyConfirmed", JVal.str "yes"), ("archived", JVal.bool true)]], [], [], []⟩) :=
  ⟨by simp [getField], rfl⟩

/-! ## Frame lemmas: what the notification helpers leave alone -/

theorem createNotification_frame (h : Host) (clock : Nat → Nat) (k : Nat) (userId : JVal)
    (title message : String) (taskId : JVal) (db db' : Store)
    (hc : createNotification h clock k userId title message taskId db = some db') :
    db'.tasks = db.tasks ∧ db'.users = db.users ∧ db'.messages = db.messages := by
  unfold createNotification at hc
  cases hu : toStr h userId with
  | none => simp [hu] at hc
  | some s =>
    simp only [hu, Option.some.injEq] at hc
    subst hc
    exact ⟨rfl, rfl, rfl⟩

theorem notifyVolunteers_frame (h : Host) (clock : Nat → Nat) (newTask : Rec)
    (vs : List Rec) (k : Nat) (db : Store) :
    (notifyVolunteers h clock newTask vs k db).2.tasks = db.tasks ∧
      (notifyVolunteers h clock newTask vs k db).2.users = db.users ∧
      (notifyVolunteers h clock newTask vs k db).2.messages = db.messages := by
  induction vs generalizing k db with
  | nil => exact ⟨rfl, rfl, rfl⟩
  | cons v rest ih =>
    unfold notifyVolunteers
    cases hv : toStr h (getField v "id") with
    | none => exact ⟨rfl, rfl, rfl⟩
    | some s =>
      cases ht : toStr h (getField newTask "title") with
      | none => simpa using ih k db
      | some title =>
        simp only [createNotification, hv]
        exact ih (k + 2) _

theorem notifyAccepted_frame (h : Host) (clock : Nat → Nat) (taskId : String)
    (volunteerId : JVal) (task : Rec) (db db' : Store)
    (hn : notifyAccepted h clock taskId volunteerId task db = some db') :
    db'.tasks = db.tasks ∧ db'.users = db.users ∧ db'.messages = db.messages := by
  unfold notifyAccepted at hn
  split at hn
  · simp at hn
  · split at hn
    · exact createNotification_frame _ _ _ _ _ _ _ _ _ hn
    · simp at hn

theorem notifyCompleted_frame (h : Host) (clock : Nat → Nat) (taskId : String)
    (task : Rec) (db : Store) :
    (notifyCompleted h clock taskId task db).2.tasks = db.tasks ∧
      (notifyCompleted h clock taskId task db).2.users = db.users ∧
      (notifyCompleted h clock taskId task db).2.messages = db.messages := by
  unfold notifyCompleted
  split
  · exact ⟨rfl, rfl, rfl⟩
  · split
    · exact ⟨rfl, rfl, rfl⟩
    · next db1 h1 =>
      have f1 := createNotification_frame _ _ _ _ _ _ _ _ _ h1
      split
      · exact f1
      · next db2 h2 =>
        have f2 := createNotification_frame _ _ _ _ _ _ _ _ _ h2
        exact ⟨f2.1.trans f1.1, f2.2.1.trans f1.2.1, f2.2.2.trans f1.2.2⟩

theorem notifyRated_frame (h : Host) (clock : Nat → Nat) (taskId : String)
    (rating : JVal) (task : Rec) (db db' : Store)
    (hn : notifyRated h clock taskId rating task db = some db') :
    db'.tasks = db.tasks ∧ db'.users = db.users ∧ db'.messages = db.messages := by
  unfold notifyRated at hn
  split at hn
  · exact createNotification_frame _ _ _ _ _ _ _ _ _ hn
  · simp at hn

theorem notifyCompleted_frame_of_eq (h : Host) (clock : Nat → Nat) (taskId : String)
    (task : Rec) (db db' : Store) (b : Bool)
    (hn : notifyCompleted h clock taskId task db = (b, db')) :
    db'.tasks = db.tasks ∧ db'.users = db.users ∧ db'.messages = db.messages := by
  have hfr := notifyCompleted_frame h clock taskId task db
  rw [hn] at hfr
  exact hfr

/-- The tasks, users and messages after `PATCH /tasks/:id` on an existing
task, whatever the outcome: the merge has been written and nothing else. -/
theorem updateTask_frame (h : Host) (clock : Nat → Nat) (taskId : String) (body : Rec)
    (db : Store) (found : Rec)
    (hfind : db.tasks.find? (matchesStrict "id" (JVal.str taskId)) = some found) :
    (updateTask h clock taskId body db).2.tasks =
        updateFirst (matchesStrict "id" (JVal.str taskId))
          (fun t => assign t (spread body)) db.tasks ∧
      (updateTask h clock taskId body db).2.users = db.users ∧
      (updateTask h clock taskId body db).2.messages = db.messages := by
  simp only [updateTask, hfind]
  split
  · split
    · exact ⟨rfl, rfl, rfl⟩
    · next db2 hn => exact notifyAccepted_frame _ _ _ _ _ _ _ hn
  · split
    · split
      · next db2 hn => exact notifyCompleted_frame_of_eq _ _ _ _ _ _ _ hn
      · next db2 hn => exact notifyCompleted_frame_of_eq _ _ _ _ _ _ _ hn
    · split
      · split
        · exact ⟨rfl, rfl, rfl⟩
        · next db2 hn => exact notifyRated_frame _ _ _ _ _ _ _ hn
      · exact ⟨rfl, rfl, rfl⟩

theorem createTask_tasks (h : Host) (clock : Nat → Nat) (body : Rec) (db : Store) :
    (createTask h clock body db).2.tasks = db.tasks ++ [newTaskOf clock body] := by
  have hfr := (notifyVolunteers_frame h clock (newTaskOf clock body)
    (volunteersOf { db with tasks := db.tasks ++ [newTaskOf clock body] }) 1
    { db with tasks := db.tasks ++ [newTaskOf clock body] }).1
  simp only [createTask]
  split
  · next db2 hn =>
    rw [hn] at hfr
    exact hfr
  · next db2 hn =>
    rw [hn] at hfr
    exact hfr

theorem postMessage_tasks (h : Host) (clock : Nat → Nat) (taskId : String) (body : Rec)
    (db : Store) : (postMessage h clock taskId body db).2.tasks = db.tasks := by
  simp only [postMessage]
  split
  · rfl
  · split
    · rfl
    · split
      · rfl
      · next db2 hn => exact (createNotification_frame _ _ _ _ _ _ _ _ _ hn).1

theorem markRead_tasks (notificationId : String) (db : Store) :
    (markRead notificationId db).2.tasks = db.tasks := by
  simp only [markRead]
  split <;> rfl

/-- The tasks after `PATCH /users/:id/rate`: untouched, or the task found has
been replaced by itself with `rating` set. -/
theorem rateUser_tasks (h : Host) (clock : Nat → Nat) (id : String) (body : Rec) (db : Store) :
    (rateUser h clock id body db).2.tasks = db.tasks ∨
      ∃ task, db.tasks.find? (matchesProp h "id" (getField body "taskId")) = some task ∧
        (rateUser h clock id body db).2.tasks =
          updateFirst (matchesProp h "id" (getField body "taskId"))
            (fun _ => assign (setField task "rating" (getField body "rating"))
              (setField task "rating" (getField body "rating"))) db.tasks := by
  simp only [rateUser]
  split
  · next user task hu ht =>
    split
    · split
      · exact Or.inl rfl
      · split
        · split
          · exact Or.inr ⟨task, ht, rfl⟩
          · next db3 hn =>
            exact Or.inr ⟨task, ht, (createNotification_frame _ _ _ _ _ _ _ _ _ hn).1⟩
        · exact Or.inr ⟨task, ht, rfl⟩
    · exact Or.inl rfl
  · exact Or.inl rfl

theorem updateFirst_getElem? (p : Rec → Bool) (f : Rec → Rec) (l : List Rec) (i : Nat)
    (t' : Rec) (hi : (updateFirst p f l)[i]? = some t') :
    ∃ t, l[i]? = some t ∧ (t' = t ∨ (t' = f t ∧ l.find? p = some t)) := by
  induction l generalizing i with
  | nil => simp [updateFirst] at hi
  | cons r rs ih =>
    by_cases hp : p r = true
    · simp only [updateFirst, hp, if_true] at hi
      cases i with
      | zero =>
        simp only [List.getElem?_cons_zero, Option.some.injEq] at hi
        exact ⟨r, by simp, Or.inr ⟨hi.symm, by simp [List.find?, hp]⟩⟩
      | succ j =>
        simp only [List.getElem?_cons_succ] at hi
        exact ⟨t', by simpa using hi, Or.inl rfl⟩
    · simp only [Bool.not_eq_true] at hp
      have hu : updateFirst p f (r :: rs) = r :: updateFirst p f rs := by
        simp [updateFirst, hp]
      rw [hu] at hi
      cases i with
      | zero =>
        simp only [List.getElem?_cons_zero, Option.some.injEq] at hi
        exact ⟨r, by simp, Or.inl hi.symm⟩
      | succ j =>
        simp only [List.getElem?_cons_succ] at hi
        obtain ⟨t, h1, h2⟩ := ih j hi
        refine ⟨t, by simpa using h1, ?_⟩
        rcases h2 with h2 | ⟨h2, h3⟩
        · exact Or.inl h2
        · exact Or.inr ⟨h2, by simp [List.find?, hp, h3]⟩

theorem strictEq_true_iff (v : JVal) : strictEq v (JVal.bool true) = true ↔ v = JVal.bool true := by
  cases v <;> simp [strictEq]

/-! ## The archived flag -/

/-- C6, amended: along any sequence of CreateTask, UpdateTask, ArchiveTask,
PostMessage, RateUser and MarkRead requests from any store, a task that is
archived after a step was archived before that step, or the step is an
ArchiveTask at which the task has status "Completed" and a truthy
`elderlyConfirmed`, or the step is a CreateTask or an UpdateTask whose request
body itself carries `archived = true`.  PostMessage, RateUser and MarkRead
never set the flag. -/
theorem archived_only_by_guard_or_body (h : Host) (db0 : Store) (rs : List Request)
    (r : Request) (i : Nat) (after : Rec)
    (hafter : (step h (run h db0 rs) r).2.tasks[i]? = some after)
    (harch : isArchived after = true) :
    (∃ before, (run h db0 rs).tasks[i]? = some before ∧ isArchived before = true) ∨
    (∃ taskId before, r = Request.archiveTask taskId ∧
      (run h db0 rs).tasks[i]? = some before ∧
      getField before "status" = JVal.str "Completed" ∧
      truthy (getField before "elderlyConfirmed") = true ∧
      getField after "status" = JVal.str "Completed" ∧
      truthy (getField after "elderlyConfirmed") = true) ∨
    (∃ clock body, r = Request.createTask clock body ∧
      getField body "archived" = JVal.bool true) ∨
    (∃ clock taskId body, r = Request.updateTask clock taskId body ∧
      getField body "archived" = JVal.bool true) := by
  generalize run h db0 rs = db at hafter ⊢
  cases r with
  | createTask clock body =>
    simp only [step, createTask_tasks] at hafter
    by_cases hlt : i < db.tasks.length
    · rw [List.getElem?_append_left hlt] at hafter
      exact Or.inl ⟨after, hafter, harch⟩
    · rw [List.getElem?_append_right (Nat.le_of_not_lt hlt)] at hafter
      have hnew : after = newTaskOf clock body := by
        cases hj : i - db.tasks.length with
        | zero => simpa [hj] using hafter.symm
        | succ j => simp [hj] at hafter
      subst hnew
      refine Or.inr (Or.inr (Or.inl ⟨clock, body, rfl, ?_⟩))
      have := (strictEq_true_iff _).1 harch
      rwa [getField_newTaskOf_ne clock body "archived" (by decide)] at this
  | updateTask clock taskId body =>
    simp only [step] at hafter
    cases hf : db.tasks.find? (matchesStrict "id" (JVal.str taskId)) with
    | none =>
      simp only [updateTask, hf] at hafter
      exact Or.inl ⟨after, hafter, harch⟩
    | some found =>
      rw [(updateTask_frame h clock taskId body db found hf).1] at hafter
      obtain ⟨t, ht, hcase⟩ := updateFirst_getElem? _ _ _ _ _ hafter
      rcases hcase with hsame | ⟨hmerged, _⟩
      · subst hsame
        exact Or.inl ⟨after, ht, harch⟩
      · subst hmerged
        have hval := (strictEq_true_iff _).1 harch
        rw [getField_merge] at hval
        by_cases hb : hasField body "archived" = true
        · rw [if_pos hb] at hval
          exact Or.inr (Or.inr (Or.inr ⟨clock, taskId, body, rfl, hval⟩))
        · rw [if_neg hb] at hval
          exact Or.inl ⟨t, ht, (strictEq_true_iff _).2 hval⟩
  | archiveTask taskId =>
    simp only [step, archiveTask] at hafter
    cases hf : db.tasks.find? (matchesStrict "id" (JVal.str taskId)) with
    | none =>
      simp only [hf] at hafter
      exact Or.inl ⟨after, hafter, harch⟩
    | some found =>
      simp only [hf] at hafter
      by_cases ha : archivable found = true
      · simp only [ha, if_true] at hafter
        obtain ⟨t, ht, hcase⟩ := updateFirst_getElem? _ _ _ _ _ hafter
        rcases hcase with hsame | ⟨hset, hfirst⟩
        · subst hsame
          exact Or.inl ⟨after, ht, harch⟩
        · rw [hf] at hfirst
          cases hfirst
          simp only [archivable, Bool.and_eq_true, strictEq_str_iff] at ha
          refine Or.inr (Or.inl ⟨taskId, found, rfl, ht, ha.1, ha.2, ?_, ?_⟩)
          · rw [hset, getField_assign]
            simpa [hasField] using ha.1
          · rw [hset, getField_assign]
            simpa [hasField] using ha.2
      · simp only [ha] at hafter
        exact Or.inl ⟨after, hafter, harch⟩
  | postMessage clock taskId body =>
    simp only [step, postMessage_tasks] at hafter
    exact Or.inl ⟨after, hafter, harch⟩
  | rateUser clock id body =>
    simp only [step] at hafter
    rcases rateUser_tasks h clock id body db with hsame | ⟨task, hfind, hupd⟩
    · rw [hsame] at hafter
      exact Or.inl ⟨after, hafter, harch⟩
    · rw [hupd] at hafter
      obtain ⟨t, ht, hcase⟩ := updateFirst_getElem? _ _ _ _ _ hafter
      rcases hcase with hsame | ⟨hset, hfirst⟩
      · subst hsame
        exact Or.inl ⟨after, ht, harch⟩
      · rw [hfind] at hfirst
        cases hfirst
        refine Or.inl ⟨task, ht, ?_⟩
        have hval := (strictEq_true_iff _).1 harch
        rw [hset, getField_assign] at hval
        simp only [ite_self] at hval
        rw [getField_setField_ne _ _ _ _ (by decide)] at hval
        exact (strictEq_true_iff _).2 hval
  | markRead notificationId =>
    simp only [step, markRead_tasks] at hafter
    exact Or.inl ⟨after, hafter, harch⟩

/-- C6, witness: a created task is completed and confirmed by an update, then
archived by the archive route. -/
theorem archived_only_by_guard_or_body_witness :
    (∃ before, (run refHost ⟨[[("id", JVal.str "1"), ("status", JVal.str "Created")]], [], [], []⟩
        [Request.updateTask (fun n => 1000 + n) "1"
          [("status", JVal.str "Done"), ("elderlyConfirmed", JVal.bool true)],
         Request.updateTask (fun n => 2000 + n) "1" [("status", JVal.str "Completed")]]).tasks[0]? =
          some before ∧ isArchived before = true) ∨
    (∃ taskId before, Request.archiveTask "1" = Request.archiveTask taskId ∧
      (run refHost ⟨[[("id", JVal.str "1"), ("status", JVal.str "Created")]], [], [], []⟩
        [Request.updateTask (fun n => 1000 + n) "1"
          [("status", JVal.str "Done"), ("elderlyConfirmed", JVal.bool true)],
         Request.updateTask (fun n => 2000 + n) "1" [("status", JVal.str "Completed")]]).tasks[0]? =
          some before ∧
      getField before "status" = JVal.str "Completed" ∧
      truthy (getField before "elderlyConfirmed") = true ∧
      getField [("id", JVal.str "1"), ("status", JVal.str "Completed"),
        ("elderlyConfirmed", JVal.bool true), ("archived", JVal.bool true)] "status" =
          JVal.str "Completed" ∧
      truthy (getField [("id", JVal.str "1"), ("status", JVal.str "Completed"),
        ("elderlyConfirmed", JVal.bool true), ("archived", JVal.bool true)]
          "elderlyConfirmed") = true) ∨
    (∃ clock body, Request.archiveTask "1" = Request.createTask clock body ∧
      getField body "archived" = JVal.bool true) ∨
    (∃ clock taskId body, Request.archiveTask "1" = Request.updateTask clock taskId body ∧
      getField body "archived" = JVal.bool true) :=
  archived_only_by_guard_or_body refHost
    ⟨[[("id", JVal.str "1"), ("status", JVal.str "Created")]], [], [], []⟩
    [Request.updateTask (fun n => 1000 + n) "1"
      [("status", JVal.str "Done"), ("elderlyConfirmed", JVal.bool true)],
     Request.updateTask (fun n => 2000 + n) "1" [("status", JVal.str "Completed")]]
    (Request.archiveTask "1") 0
    [("id", JVal.str "1"), ("status", JVal.str "Completed"),
      ("elderlyConfirmed", JVal.bool true), ("archived", JVal.bool true)]
    rfl rfl

/-- C6, counterexample: from a store whose only task is not archived, one
UpdateTask whose body is `archived: true` leaves that task archived while its
status is "Created" and it carries no `elderlyConfirmed`. -/
theorem archived_invariant_counterexample :
    isArchived [("id", JVal.str "1"), ("status", JVal.str "Created")] = false ∧
    (run refHost ⟨[[("id", JVal.str "1"), ("status", JVal.str "Created")]], [], [], []⟩
        [Request.updateTask (fun n => 1000 + n) "1" [("archived", JVal.bool true)]]).tasks =
      [[("id", JVal.str "1"), ("status", JVal.str "Created"), ("archived", JVal.bool true)]] ∧
    isArchived [("id", JVal.str "1"), ("status", JVal.str "Created"),
      ("archived", JVal.bool true)] = true ∧
    getField [("id", JVal.str "1"), ("status", JVal.str "Created"),
      ("archived", JVal.bool true)] "status" ≠ JVal.str "Completed" ∧
    getField [("id", JVal.str "1"), ("status", JVal.str "Created"),
      ("archived", JVal.bool true)] "elderlyConfirmed" = JVal.undefined :=
  ⟨rfl, rfl, rfl, by simp [getField], rfl⟩

/-! ## UpdateTask: the rated rule, silent statuses, the merge, and the answers -/

theorem strictEq_str_eq_false (v : JVal) (s : String) (hne : v ≠ JVal.str s) :
    strictEq v (JVal.str s) = false := by
  cases hs : strictEq v (JVal.str s) with
  | false => rfl
  | true => exact absurd ((strictEq_str_iff v s).1 hs) hne

/-- C7, amended: on an existing task, a patch whose status is neither
"Accepted" nor "Completed" and which carries a truthy `elderlyConfirmed` and a
truthy rating (for a number: any rating other than 0) appends exactly one
notification whenever the merged record's title and `volunteerId` and the
rating can be rendered as text.  It is addressed to the merged record's
`volunteerId`, titled "Task Rated", its message is the rated text with the
rendered rating, and it carries the id under which the task was found. -/
theorem updateTask_rated (h : Host) (clock : Nat → Nat) (taskId : String) (body : Rec)
    (db : Store) (found : Rec) (title rating volunteer : String)
    (hfind : db.tasks.find? (matchesStrict "id" (JVal.str taskId)) = some found)
    (hacc : getField body "status" ≠ JVal.str "Accepted")
    (hcomp : getField body "status" ≠ JVal.str "Completed")
    (hconf : truthy (getField body "elderlyConfirmed") = true)
    (hrate : truthy (getField body "rating") = true)
    (htitle : toStr h (getField (assign found (spread body)) "title") = some title)
    (hrating : toStr h (getField body "rating") = some rating)
    (hvolunteer : toStr h (getField (assign found (spread body)) "volunteerId") = some volunteer) :
    ∃ n pre post,
      updateTask h clock taskId body db =
        (Response.json 200 taskUpdatedBody,
          { db with
            tasks := pre ++ assign found (spread body) :: post
            notifications := db.notifications ++ [n] }) ∧
      db.tasks = pre ++ found :: post ∧
      getField n "userId" = getField (assign found (spread body)) "volunteerId" ∧
      getField n "title" = JVal.str "Task Rated" ∧
      getField n "message" = JVal.str (ratedMessage title rating) ∧
      getField n "taskId" = JVal.str taskId ∧
      getField found "id" = JVal.str taskId := by
  obtain ⟨pre, post, hsplit, _, hp, hupd⟩ :=
    updateFirst_of_find_some (matchesStrict "id" (JVal.str taskId))
      (fun t => assign t (spread body)) db.tasks found hfind
  refine ⟨newNotification h (clock 0) (clock 1)
      (getField (assign found (spread body)) "volunteerId") "Task Rated"
      (ratedMessage title rating) (JVal.str taskId),
    pre, post, ?_, hsplit, rfl, rfl, rfl, rfl, getField_id_of_matchesStrict taskId found hp⟩
  simp [updateTask, hfind, strictEq_str_eq_false _ _ hacc, strictEq_str_eq_false _ _ hcomp,
    hconf, hrate, notifyRated, htitle, hrating, createNotification, hvolunteer, hupd]

/-- C7, witness: a confirmation with the rating 5. -/
theorem updateTask_rated_witness :
    ∃ n pre post,
      updateTask refHost (fun n => 1000 + n) "1"
          [("elderlyConfirmed", JVal.bool true), ("rating", JVal.num 5)]
          ⟨[[("id", JVal.str "1"), ("title", JVal.str "Walk"), ("volunteerId", JVal.str "v1")]],
            [], [], []⟩ =
        (Response.json 200 taskUpdatedBody,
          ⟨pre ++ [("id", JVal.str "1"), ("title", JVal.str "Walk"), ("volunteerId", JVal.str "v1"),
              ("elderlyConfirmed", JVal.bool true), ("rating", JVal.num 5)] :: post,
            [], [], [] ++ [n]⟩) ∧
      getField n "userId" = JVal.str "v1" ∧
      getField n "message" = JVal.str (ratedMessage "Walk" "5") := by
  obtain ⟨n, pre, post, h1, _, h3, _, h5, _⟩ :=
    updateTask_rated refHost (fun n => 1000 + n) "1"
      [("elderlyConfirmed", JVal.bool true), ("rating", JVal.num 5)]
      ⟨[[("id", JVal.str "1"), ("title", JVal.str "Walk"), ("volunteerId", JVal.str "v1")]],
        [], [], []⟩
      [("id", JVal.str "1"), ("title", JVal.str "Walk"), ("volunteerId", JVal.str "v1")]
      "Walk" "5" "v1" rfl (by simp [getField]) (by simp [getField]) rfl
      (by simp [getField, truthy]) rfl rfl rfl
  exact ⟨n, pre, post, h1, h3, h5⟩

/-- C7, counterexample: with a confirmation and the numeric rating 0 the guard
`elderlyConfirmed && rating` is false, and the update succeeds without any
notification; with the rating 5 on a task whose stored title is an object with
an own `toString` entry the message template throws, and the request ends with
a 500 and no notification. -/
theorem updateTask_rated_counterexample :
    updateTask refHost (fun n => 1000 + n) "1"
        [("elderlyConfirmed", JVal.bool true), ("rating", JVal.num 0)]
        ⟨[[("id", JVal.str "1"), ("title", JVal.str "Walk"), ("volunteerId", JVal.str "v1")]],
          [], [], []⟩ =
      (Response.json 200 taskUpdatedBody,
        ⟨[[("id", JVal.str "1"), ("title", JVal.str "Walk"), ("volunteerId", JVal.str "v1"),
            ("elderlyConfirmed", JVal.bool true), ("rating", JVal.num 0)]], [], [], []⟩) ∧
    updateTask refHost (fun n => 1000 + n) "1"
        [("elderlyConfirmed", JVal.bool true), ("rating", JVal.num 5)]
        ⟨[[("id", JVal.str "1"), ("title", JVal.obj [("toString", JVal.null)]),
            ("volunteerId", JVal.str "v1")]], [], [], []⟩ =
      (Response.fault,
        ⟨[[("id", JVal.str "1"), ("title", JVal.obj [("toString", JVal.null)]),
            ("volunteerId", JVal.str "v1"),
            ("elderlyConfirmed", JVal.bool true), ("rating", JVal.num 5)]], [], [], []⟩) :=
  ⟨by simp [updateTask, matchesStrict, strictEq, getField, hasField, truthy, updateFirst,
      assign, assignKeys, spread, setField, taskUpdatedBody],
   by simp [updateTask, matchesStrict, strictEq, getField, hasField, truthy, updateFirst,
      assign, assignKeys, spread, setField, notifyRated, toStr]⟩

/-- C8, amended: on an existing task, a patch whose status is a string other
than "Accepted" and "Completed" and which does not carry both a truthy
`elderlyConfirmed` and a truthy rating succeeds, writes that string to the
task's status, and leaves the notifications (and users and messages)
unchanged. -/
theorem updateTask_silent_status (h : Host) (clock : Nat → Nat) (taskId : String) (body : Rec)
    (db : Store) (found : Rec) (s : String)
    (hfind : db.tasks.find? (matchesStrict "id" (JVal.str taskId)) = some found)
    (hstatus : getField body "status" = JVal.str s)
    (hacc : s ≠ "Accepted") (hcomp : s ≠ "Completed")
    (hrule : (truthy (getField body "elderlyConfirmed") && truthy (getField body "rating")) = false) :
    ∃ pre post,
      updateTask h clock taskId body db =
        (Response.json 200 taskUpdatedBody,
          { db with tasks := pre ++ assign found (spread body) :: post }) ∧
      db.tasks = pre ++ found :: post ∧
      getField (assign found (spread body)) "status" = JVal.str s ∧
      (updateTask h clock taskId body db).2.notifications = db.notifications := by
  obtain ⟨pre, post, hsplit, _, _, hupd⟩ :=
    updateFirst_of_find_some (matchesStrict "id" (JVal.str taskId))
      (fun t => assign t (spread body)) db.tasks found hfind
  have hres : updateTask h clock taskId body db =
      (Response.json 200 taskUpdatedBody,
        { db with tasks := pre ++ assign found (spread body) :: post }) := by
    simp [updateTask, hfind, hstatus, strictEq, hacc, hcomp, hrule, hupd]
  have hhas : hasField body "status" = true := by
    cases hh : hasField body "status" with
    | true => rfl
    | false =>
      rw [getField_of_hasField_false body "status" hh] at hstatus
      cases hstatus
  refine ⟨pre, post, hres, hsplit, ?_, ?_⟩
  · rw [getField_merge, if_pos hhas, hstatus]
  · rw [hres]

/-- C8, witness: a cancellation. -/
theorem updateTask_silent_status_witness :
    ∃ pre post,
      updateTask refHost (fun n => 1000 + n) "1" [("status", JVal.str "Cancelled")]
          ⟨[[("id", JVal.str "1"), ("status", JVal.str "Created")]], [], [],
            [[("id", JVal.str "900")]]⟩ =
        (Response.json 200 taskUpdatedBody,
          ⟨pre ++ [("id", JVal.str "1"), ("status", JVal.str "Cancelled")] :: post, [], [],
            [[("id", JVal.str "900")]]⟩) ∧
      [[("id", JVal.str "1"), ("status", JVal.str "Created")]] =
        pre ++ [("id", JVal.str "1"), ("status", JVal.str "Created")] :: post := by
  obtain ⟨pre, post, h1, h2, _, _⟩ :=
    updateTask_silent_status refHost (fun n => 1000 + n) "1" [("status", JVal.str "Cancelled")]
      ⟨[[("id", JVal.str "1"), ("status", JVal.str "Created")]], [], [],
        [[("id", JVal.str "900")]]⟩
      [("id", JVal.str "1"), ("status", JVal.str "Created")] "Cancelled"
      rfl rfl (by decide) (by decide) rfl
  exact ⟨pre, post, h1, h2⟩

/-- C8, counterexample: the status "Cancelled" together with a confirmation
and the rating 5 fires the rated rule, and a "Task Rated" notification is
appended. -/
theorem updateTask_silent_status_counterexample :
    updateTask refHost (fun n => 1000 + n) "1"
        [("status", JVal.str "Cancelled"), ("elderlyConfirmed", JVal.bool true),
          ("rating", JVal.num 5)]
        ⟨[[("id", JVal.str "1"), ("title", JVal.str "Walk"), ("volunteerId", JVal.str "v1")]],
          [], [], []⟩ =
      (Response.json 200 taskUpdatedBody,
        ⟨[[("id", JVal.str "1"), ("title", JVal.str "Walk"), ("volunteerId", JVal.str "v1"),
            ("status", JVal.str "Cancelled"), ("elderlyConfirmed", JVal.bool true),
            ("rating", JVal.num 5)]], [], [],
          [newNotification refHost 1000 1001 (JVal.str "v1") "Task Rated"
            (ratedMessage "Walk" "5") (JVal.str "1")]⟩) :=
  rfl

/-- C9: on an existing task, whatever the patch and whatever the outcome of the
notification rule, the record stored in the task's place afterwards has the
patch's value for each field the patch names and the previous value for every
other field; the tasks before and after it, the users and the messages are
unchanged. -/
theorem updateTask_merge (h : Host) (clock : Nat → Nat) (taskId : String) (body : Rec)
    (db : Store) (found : Rec)
    (hfind : db.tasks.find? (matchesStrict "id" (JVal.str taskId)) = some found) :
    ∃ pre post merged,
      db.tasks = pre ++ found :: post ∧
      (∀ r ∈ pre, matchesStrict "id" (JVal.str taskId) r = false) ∧
      (updateTask h clock taskId body db).2.tasks = pre ++ merged :: post ∧
      (∀ k, hasField body k = true → getField merged k = getField body k) ∧
      (∀ k, hasField body k = false →
        getField merged k = getField found k ∧ hasField merged k = hasField found k) ∧
      (updateTask h clock taskId body db).2.users = db.users ∧
      (updateTask h clock taskId body db).2.messages = db.messages := by
  obtain ⟨pre, post, hsplit, hpre, _, hupd⟩ :=
    updateFirst_of_find_some (matchesStrict "id" (JVal.str taskId))
      (fun t => assign t (spread body)) db.tasks found hfind
  obtain ⟨ht, hu, hm⟩ := updateTask_frame h clock taskId body db found hfind
  refine ⟨pre, post, assign found (spread body), hsplit, hpre, ?_, ?_, ?_, hu, hm⟩
  · rw [ht, hupd]
  · intro k hk
    rw [getField_merge, if_pos hk]
  · intro k hk
    constructor
    · rw [getField_merge, hk]
      simp
    · rw [hasField_assign, hasField_spread, hk]
      simp

/-- C9, witness: the patch overwrites the status and adds a volunteer; the
title is retained, and the other task is untouched. -/
theorem updateTask_merge_witness :
    ∃ pre post merged,
      [[("id", JVal.str "0"), ("title", JVal.str "Shop")],
        [("id", JVal.str "1"), ("title", JVal.str "Walk"), ("status", JVal.str "Created")]] =
          pre ++ [("id", JVal.str "1"), ("title", JVal.str "Walk"),
            ("status", JVal.str "Created")] :: post ∧
      (updateTask refHost (fun n => 1000 + n) "1"
          [("status", JVal.str "Accepted"), ("volunteerId", JVal.str "v1")]
          ⟨[[("id", JVal.str "0"), ("title", JVal.str "Shop")],
            [("id", JVal.str "1"), ("title", JVal.str "Walk"), ("status", JVal.str "Created")]],
            [], [], []⟩).2.tasks = pre ++ merged :: post ∧
      getField merged "status" = JVal.str "Accepted" ∧
      getField merged "title" = JVal.str "Walk" := by
  obtain ⟨pre, post, merged, h1, _, h3, h4, h5, _⟩ :=
    updateTask_merge refHost (fun n => 1000 + n) "1"
      [("status", JVal.str "Accepted"), ("volunteerId", JVal.str "v1")]
      ⟨[[("id", JVal.str "0"), ("title", JVal.str "Shop")],
        [("id", JVal.str "1"), ("title", JVal.str "Walk"), ("status", JVal.str "Created")]],
        [], [], []⟩
      [("id", JVal.str "1"), ("title", JVal.str "Walk"), ("status", JVal.str "Created")] rfl
  exact ⟨pre, post, merged, h1, h3, h4 "status" rfl, (h5 "title" rfl).1⟩

/-- C10, amended: when no task has the id, `PATCH /tasks/:id` answers 404 with
`success: false` for every patch and leaves the whole store unchanged.  When a
task has the id and the patch's status is not "Accepted", the answer is the
success acknowledgment provided the values the firing rule interpolates can be
rendered as text: under "Completed" the merged record's title, `elderlyId` and
`volunteerId`; under the rated rule the merged record's title and
`volunteerId` and the rating; when no rule fires, nothing is required. -/
theorem updateTask_answers (h : Host) (clock : Nat → Nat) (taskId : String) (body : Rec)
    (db : Store) :
    (db.tasks.find? (matchesStrict "id" (JVal.str taskId)) = none →
      updateTask h clock taskId body db = (Response.json 404 taskNotFoundBody, db)) ∧
    (∀ found, db.tasks.find? (matchesStrict "id" (JVal.str taskId)) = some found →
      getField body "status" ≠ JVal.str "Accepted" →
      (getField body "status" = JVal.str "Completed" →
        (toStr h (getField (assign found (spread body)) "title")).isSome = true ∧
        (toStr h (getField (assign found (spread body)) "elderlyId")).isSome = true ∧
        (toStr h (getField (assign found (spread body)) "volunteerId")).isSome = true) →
      (getField body "status" ≠ JVal.str "Completed" →
        truthy (getField body "elderlyConfirmed") = true →
        truthy (getField body "rating") = true →
        (toStr h (getField (assign found (spread body)) "title")).isSome = true ∧
        (toStr h (getField body "rating")).isSome = true ∧
        (toStr h (getField (assign found (spread body)) "volunteerId")).isSome = true) →
      (updateTask h clock taskId body db).1 = Response.json 200 taskUpdatedBody) := by
  constructor
  · intro hnone
    simp [updateTask, hnone]
  · intro found hfind hacc hC hR
    by_cases hcomp : getField body "status" = JVal.str "Completed"
    · obtain ⟨h1, h2, h3⟩ := hC hcomp
      obtain ⟨title, htitle⟩ := Option.isSome_iff_exists.1 h1
      obtain ⟨e, he⟩ := Option.isSome_iff_exists.1 h2
      obtain ⟨v, hv⟩ := Option.isSome_iff_exists.1 h3
      simp [updateTask, hfind, hcomp, strictEq, notifyCompleted, htitle, createNotification,
        he, hv]
    · by_cases hrule : (truthy (getField body "elderlyConfirmed") &&
          truthy (getField body "rating")) = true
      · have hboth := hrule
        simp only [Bool.and_eq_true] at hboth
        obtain ⟨h1, h2, h3⟩ := hR hcomp hboth.1 hboth.2
        obtain ⟨title, htitle⟩ := Option.isSome_iff_exists.1 h1
        obtain ⟨r, hr⟩ := Option.isSome_iff_exists.1 h2
        obtain ⟨v, hv⟩ := Option.isSome_iff_exists.1 h3
        simp [updateTask, hfind, strictEq_str_eq_false _ _ hacc,
          strictEq_str_eq_false _ _ hcomp, hboth.1, hboth.2, notifyRated, htitle, hr,
          createNotification, hv]
      · simp only [Bool.not_eq_true] at hrule
        simp [updateTask, hfind, strictEq_str_eq_false _ _ hacc,
          strictEq_str_eq_false _ _ hcomp, hrule]

/-- C10, witness: an unknown id is answered 404 with the store untouched, and a
"Completed" patch on an existing task is acknowledged. -/
theorem updateTask_answers_witness :
    updateTask refHost (fun n => 1000 + n) "7" [("status", JVal.str "Completed")]
        ⟨[[("id", JVal.str "1"), ("title", JVal.str "Walk")]],
          [[("id", JVal.str "v1")]], [[("id", JVal.str "m1")]], [[("id", JVal.str "n1")]]⟩ =
      (Response.json 404 taskNotFoundBody,
        ⟨[[("id", JVal.str "1"), ("title", JVal.str "Walk")]],
          [[("id", JVal.str "v1")]], [[("id", JVal.str "m1")]], [[("id", JVal.str "n1")]]⟩) ∧
    (updateTask refHost (fun n => 1000 + n) "1" [("status", JVal.str "Completed")]
        ⟨[[("id", JVal.str "1"), ("title", JVal.str "Walk")]],
          [[("id", JVal.str "v1")]], [[("id", JVal.str "m1")]], [[("id", JVal.str "n1")]]⟩).1 =
      Response.json 200 taskUpdatedBody :=
  ⟨(updateTask_answers refHost (fun n => 1000 + n) "7" [("status", JVal.str "Completed")]
      ⟨[[("id", JVal.str "1"), ("title", JVal.str "Walk")]],
        [[("id", JVal.str "v1")]], [[("id", JVal.str "m1")]], [[("id", JVal.str "n1")]]⟩).1 rfl,
   (updateTask_answers refHost (fun n => 1000 + n) "1" [("status", JVal.str "Completed")]
      ⟨[[("id", JVal.str "1"), ("title", JVal.str "Walk")]],
        [[("id", JVal.str "v1")]], [[("id", JVal.str "m1")]], [[("id", JVal.str "n1")]]⟩).2
      [("id", JVal.str "1"), ("title", JVal.str "Walk")] rfl (by simp [getField])
      (fun _ => ⟨rfl, rfl, rfl⟩) (fun hne => absurd rfl hne)⟩

/-- C10, counterexample: the task exists and the patch's status is
"Completed", not "Accepted"; the stored title is an object with an own
`toString` entry, the message template throws, and the answer is a 500 instead
of the success acknowledgment. -/
theorem updateTask_answers_counterexample :
    updateTask refHost (fun n => 1000 + n) "1" [("status", JVal.str "Completed")]
        ⟨[[("id", JVal.str "1"), ("title", JVal.obj [("toString", JVal.null)])]], [], [], []⟩ =
      (Response.fault,
        ⟨[[("id", JVal.str "1"), ("title", JVal.obj [("toString", JVal.null)]),
            ("status", JVal.str "Completed")]], [], [], []⟩) :=
  rfl

/-! ## PostMessage -/

theorem strictEq_eq_of_true (a b : JVal) (hab : strictEq a b = true) : a = b := by
  cases a <;> cases b <;> simp_all [strictEq]

theorem getField_newMessageOf_taskId (clock : Nat → Nat) (taskId : String) (body : Rec) :
    getField (newMessageOf clock taskId body) "taskId" = JVal.str taskId := by
  unfold newMessageOf
  rw [getField_setField_ne _ _ _ _ (by decide), getField_setField_same]

theorem getField_newMessageOf_id (clock : Nat → Nat) (taskId : String) (body : Rec) :
    getField (newMessageOf clock taskId body) "id" = JVal.str (toString (clock 0)) := by
  unfold newMessageOf
  rw [getField_setField_same]

theorem getField_newMessageOf_ne (clock : Nat → Nat) (taskId : String) (body : Rec)
    (k : String) (hk1 : k ≠ "taskId") (hk2 : k ≠ "id") :
    getField (newMessageOf clock taskId body) k = getField body k := by
  unfold newMessageOf
  rw [getField_setField_ne _ _ _ _ hk2, getField_setField_ne _ _ _ _ hk1, getField_spread]

/-- C11, amended: on an existing task with `elderlyId` E and `volunteerId` V
whose title can be rendered as text, and for a body whose recipient (V when
`senderId === E`, E otherwise) can be rendered as text, `POST
/tasks/:id/messages` answers 201 with the new message, appends exactly that
message, carrying the task's id as `taskId`, to the messages, and appends
exactly one notification titled "New Message" with that `taskId`.  The
notification is addressed to V when `senderId === E` and to E otherwise, in
particular to E when `senderId === V`. -/
theorem postMessage_recipient (h : Host) (clock : Nat → Nat) (taskId : String) (body : Rec)
    (db : Store) (task : Rec) (title recipient : String)
    (hfind : db.tasks.find? (matchesStrict "id" (JVal.str taskId)) = some task)
    (htitle : toStr h (getField task "title") = some title)
    (hrecipient : toStr h
      (if strictEq (getField body "senderId") (getField task "elderlyId") = true
        then getField task "volunteerId" else getField task "elderlyId") = some recipient) :
    ∃ n,
      postMessage h clock taskId body db =
        (Response.json 201 (JVal.obj (newMessageOf clock taskId body)),
          { db with
            messages := db.messages ++ [newMessageOf clock taskId body]
            notifications := db.notifications ++ [n] }) ∧
      getField (newMessageOf clock taskId body) "taskId" = JVal.str taskId ∧
      getField n "title" = JVal.str "New Message" ∧
      getField n "taskId" = JVal.str taskId ∧
      (strictEq (getField body "senderId") (getField task "elderlyId") = true →
        getField n "userId" = getField task "volunteerId") ∧
      (strictEq (getField body "senderId") (getField task "elderlyId") = false →
        getField n "userId" = getField task "elderlyId") ∧
      (strictEq (getField body "senderId") (getField task "volunteerId") = true →
        getField n "userId" = getField task "elderlyId") := by
  have hsender : getField (newMessageOf clock taskId body) "senderId" =
      getField body "senderId" :=
    getField_newMessageOf_ne clock taskId body "senderId" (by decide) (by decide)
  refine ⟨newNotification h (clock 1) (clock 2)
      (if strictEq (getField body "senderId") (getField task "elderlyId") = true
        then getField task "volunteerId" else getField task "elderlyId")
      "New Message" (newMessageMessage title) (JVal.str taskId), ?_,
    getField_newMessageOf_taskId clock taskId body, rfl, rfl, ?_, ?_, ?_⟩
  · simp [postMessage, hfind, hsender, htitle, createNotification, hrecipient]
  · intro hs
    simp [newNotification, getField, hs]
  · intro hs
    simp [newNotification, getField, hs]
  · intro hv
    by_cases hs : strictEq (getField body "senderId") (getField task "elderlyId") = true
    · have h1 := strictEq_eq_of_true _ _ hv
      have h2 := strictEq_eq_of_true _ _ hs
      simp [newNotification, getField, hs, ← h1, h2]
    · simp [newNotification, getField, hs]

/-- C11, witness: the volunteer writes, the requester is notified. -/
theorem postMessage_recipient_witness :
    ∃ n,
      postMessage refHost (fun n => 1000 + n) "1"
          [("senderId", JVal.str "v1"), ("content", JVal.str "On my way")]
          ⟨[[("id", JVal.str "1"), ("title", JVal.str "Walk"), ("elderlyId", JVal.str "e1"),
              ("volunteerId", JVal.str "v1")]], [], [], []⟩ =
        (Response.json 201
            (JVal.obj [("senderId", JVal.str "v1"), ("content", JVal.str "On my way"),
              ("taskId", JVal.str "1"), ("id", JVal.str "1000")]),
          ⟨[[("id", JVal.str "1"), ("title", JVal.str "Walk"), ("elderlyId", JVal.str "e1"),
              ("volunteerId", JVal.str "v1")]], [],
            [] ++ [[("senderId", JVal.str "v1"), ("content", JVal.str "On my way"),
              ("taskId", JVal.str "1"), ("id", JVal.str "1000")]],
            [] ++ [n]⟩) ∧
      getField n "userId" = JVal.str "e1" := by
  obtain ⟨n, h1, _, _, _, _, _, h7⟩ :=
    postMessage_recipient refHost (fun n => 1000 + n) "1"
      [("senderId", JVal.str "v1"), ("content", JVal.str "On my way")]
      ⟨[[("id", JVal.str "1"), ("title", JVal.str "Walk"), ("elderlyId", JVal.str "e1"),
          ("volunteerId", JVal.str "v1")]], [], [], []⟩
      [("id", JVal.str "1"), ("title", JVal.str "Walk"), ("elderlyId", JVal.str "e1"),
        ("volunteerId", JVal.str "v1")]
      "Walk" "e1" rfl rfl rfl
  exact ⟨n, h1, h7 rfl⟩

/-- C11, counterexample: the task exists, and its stored title is an object
with an own `toString` entry.  The message is stored, the message template of
the notification throws, and the request ends with a 500 and no notification. -/
theorem postMessage_recipient_counterexample :
    postMessage refHost (fun n => 1000 + n) "1"
        [("senderId", JVal.str "e1"), ("content", JVal.str "Hello")]
        ⟨[[("id", JVal.str "1"), ("title", JVal.obj [("toString", JVal.null)]),
            ("elderlyId", JVal.str "e1"), ("volunteerId", JVal.str "v1")]], [], [], []⟩ =
      (Response.fault,
        ⟨[[("id", JVal.str "1"), ("title", JVal.obj [("toString", JVal.null)]),
            ("elderlyId", JVal.str "e1"), ("volunteerId", JVal.str "v1")]], [],
          [[("senderId", JVal.str "e1"), ("content", JVal.str "Hello"),
            ("taskId", JVal.str "1"), ("id", JVal.str "1000")]],
          []⟩) :=
  rfl

/-! ## RateUser -/

theorem getField_assign_self (t : Rec) (k : String) : getField (assign t t) k = getField t k := by
  rw [getField_assign]
  simp

theorem allNums_append_num (rs : List JVal) (qs : List Rat) (r : Rat)
    (hqs : allNums rs = some qs) : allNums (rs ++ [JVal.num r]) = some (qs ++ [r]) := by
  induction rs generalizing qs with
  | nil =>
    simp only [allNums, Option.some.injEq] at hqs
    subst hqs
    simp [allNums]
  | cons x rest ih =>
    cases x with
    | num q =>
      cases hrest : allNums rest with
      | none => simp [allNums, hrest] at hqs
      | some qs' =>
        simp only [allNums, hrest, Option.some.injEq] at hqs
        subst hqs
        simp [allNums, ih qs' hrest]
    | undefined => simp [allNums] at hqs
    | null => simp [allNums] at hqs
    | bool b => simp [allNums] at hqs
    | str s => simp [allNums] at hqs
    | arr xs => simp [allNums] at hqs
    | obj fs => simp [allNums] at hqs

/-- The fraction `jsAdd` rounds is the exact sum. -/
theorem jsAdd_eq (a b : Rat) : jsAdd a b = roundDouble (a + b) := by
  unfold jsAdd
  rw [Rat.add_def, Rat.normalize_eq_mkRat]

/-- The fraction `jsDivNat` rounds is the exact quotient. -/
theorem jsDivNat_eq (a : Rat) (n : Nat) : jsDivNat a n = roundDouble (a / (n : Rat)) := by
  unfold jsDivNat
  congr 1
  rw [Rat.mkRat_eq_div]
  push_cast
  rw [← div_div, Rat.num_div_den]

/-- The doubles nearest to 0.1 and 0.2 add up to 0.30000000000000004, that is
5404319552844596 / 2^54. -/
theorem jsAdd_tenth_fifth :
    jsAdd (mkRat 3602879701896397 (2 ^ 55)) (mkRat 3602879701896397 (2 ^ 54)) =
      some (mkRat 5404319552844596 (2 ^ 54)) := by
  decide

/-- A tie goes to the even neighbour: 2^53 + 1 rounds down to 2^53, and
2^53 + 3 rounds up to 2^53 + 4. -/
theorem jsAdd_tie_to_even :
    jsAdd 9007199254740992 1 = some 9007199254740992 ∧
      jsAdd 9007199254740992 3 = some 9007199254740996 := by
  decide

/-- The quotient 1 / 3 is 0.3333333333333333, that is 6004799503160661 / 2^54. -/
theorem jsDivNat_third : jsDivNat 1 3 = some (mkRat 6004799503160661 (2 ^ 54)) := by
  decide

/-- C12, amended: for an existing user whose `ratings` is an array of numbers
`rs` (possibly empty), a body whose `taskId` selects a task whose title can be
rendered as text, and a numeric rating `r` such that the sums stay in the range
of finite doubles, `PATCH /users/:id/rate` answers 200 with the updated user.
The user stored in the found user's place has the ratings `rs` followed by `r`
and an `averageRating` equal to the mean as double arithmetic computes it:
the entries added from left to right and the sum divided by the length, each
result rounded to the nearest double.  The length is not zero.  That value is
the exact arithmetic mean whenever the running sums and the quotient are
themselves doubles, so that no rounding takes place.  The task stored in the
found task's place has `rating = r` and its other fields as before.  Exactly
one notification is appended, titled "New Rating Received" and addressed to the
rated user's id. -/
theorem rateUser_mean (h : Host) (clock : Nat → Nat) (id : String) (body : Rec) (db : Store)
    (user task : Rec) (rs : List JVal) (qs : List Rat) (r mean : Rat) (title : String)
    (huser : db.users.find? (matchesStrict "id" (JVal.str id)) = some user)
    (htask : db.tasks.find? (matchesProp h "id" (getField body "taskId")) = some task)
    (hratings : getField user "ratings" = JVal.arr rs)
    (hnums : allNums rs = some qs)
    (hrating : getField body "rating" = JVal.num r)
    (hmean : meanDouble (qs ++ [r]) = some mean)
    (htitle : toStr h (getField task "title") = some title) :
    ∃ ratedUser ratedTask n upre upost tpre tpost,
      db.users = upre ++ user :: upost ∧
      db.tasks = tpre ++ task :: tpost ∧
      (rateUser h clock id body db).1 =
        Response.json 200 (JVal.obj (setField (setField user "ratings"
          (JVal.arr (rs ++ [JVal.num r]))) "averageRating" (JVal.num mean))) ∧
      (rateUser h clock id body db).2 =
        { db with
          users := upre ++ ratedUser :: upost
          tasks := tpre ++ ratedTask :: tpost
          notifications := db.notifications ++ [n] } ∧
      getField ratedUser "ratings" = JVal.arr (rs ++ [JVal.num r]) ∧
      getField ratedUser "averageRating" = JVal.num mean ∧
      (((qs ++ [r]).length : Rat) ≠ 0) ∧
      (∀ first rest, qs ++ [r] = first :: rest →
        sumDoubles first rest = some (qs ++ [r]).sum →
        jsDivNat (qs ++ [r]).sum (qs ++ [r]).length =
          some ((qs ++ [r]).sum / ((qs ++ [r]).length : Rat)) →
        mean = (qs ++ [r]).sum / ((qs ++ [r]).length : Rat)) ∧
      (∀ k, k ≠ "ratings" → k ≠ "averageRating" →
        getField ratedUser k = getField user k) ∧
      getField ratedTask "rating" = JVal.num r ∧
      (∀ k, k ≠ "rating" → getField ratedTask k = getField task k) ∧
      getField n "title" = JVal.str "New Rating Received" ∧
      getField n "userId" = JVal.str id ∧
      getField n "taskId" = getField body "taskId" := by
  obtain ⟨upre, upost, husplit, _, hup, huupd⟩ :=
    updateFirst_of_find_some (matchesStrict "id" (JVal.str id))
      (fun _ => assign
        (setField (setField user "ratings" (JVal.arr (rs ++ [JVal.num r]))) "averageRating"
          (JVal.num mean))
        (setField (setField user "ratings" (JVal.arr (rs ++ [JVal.num r]))) "averageRating"
          (JVal.num mean)))
      db.users user huser
  obtain ⟨tpre, tpost, htsplit, _, _, htupd⟩ :=
    updateFirst_of_find_some (matchesProp h "id" (getField body "taskId"))
      (fun _ => assign (setField task "rating" (JVal.num r)) (setField task "rating" (JVal.num r)))
      db.tasks task htask
  have hid : getField user "id" = JVal.str id := getField_id_of_matchesStrict id user hup
  obtain ⟨first, rest, hcons⟩ : ∃ first rest, qs ++ [r] = first :: rest := by
    cases qs with
    | nil => exact ⟨r, [], rfl⟩
    | cons q qs' => exact ⟨q, qs' ++ [r], rfl⟩
  have hmeanval : ratingsMean h (rs ++ [JVal.num r]) = some (JVal.num mean) := by
    have hm : meanDouble (first :: rest) = some mean := by rw [← hcons, hmean]
    simp only [ratingsMean, allNums_append_num rs qs r hnums, hcons, hm]
  have huid : getField (setField (setField user "ratings" (JVal.arr (rs ++ [JVal.num r])))
      "averageRating" (JVal.num mean)) "id" = JVal.str id := by
    rw [getField_setField_ne _ _ _ _ (by decide), getField_setField_ne _ _ _ _ (by decide), hid]
  have httitle : toStr h (getField (setField task "rating" (JVal.num r)) "title") =
      some title := by
    rw [getField_setField_ne _ _ _ _ (by decide), htitle]
  have hres : rateUser h clock id body db =
      (Response.json 200 (JVal.obj (setField (setField user "ratings"
          (JVal.arr (rs ++ [JVal.num r]))) "averageRating" (JVal.num mean))),
        { db with
          users := upre ++ assign
            (setField (setField user "ratings" (JVal.arr (rs ++ [JVal.num r]))) "averageRating"
              (JVal.num mean))
            (setField (setField user "ratings" (JVal.arr (rs ++ [JVal.num r]))) "averageRating"
              (JVal.num mean)) :: upost
          tasks := tpre ++ assign (setField task "rating" (JVal.num r))
            (setField task "rating" (JVal.num r)) :: tpost
          notifications := db.notifications ++
            [newNotification h (clock 0) (clock 1) (JVal.str id) "New Rating Received"
              (newRatingMessage (h.numToString r) title) (getField body "taskId")] }) := by
    simp only [rateUser, huser, htask, hratings, hrating, hmeanval, toStr, httitle, huid,
      createNotification, huupd, htupd]
  refine ⟨assign
      (setField (setField user "ratings" (JVal.arr (rs ++ [JVal.num r]))) "averageRating"
        (JVal.num mean))
      (setField (setField user "ratings" (JVal.arr (rs ++ [JVal.num r]))) "averageRating"
        (JVal.num mean)),
    assign (setField task "rating" (JVal.num r)) (setField task "rating" (JVal.num r)),
    newNotification h (clock 0) (clock 1) (JVal.str id) "New Rating Received"
      (newRatingMessage (h.numToString r) title) (getField body "taskId"),
    upre, upost, tpre, tpost, husplit, htsplit, ?_, ?_, ?_, ?_, ?_, ?_, ?_, ?_, ?_, ?_, ?_, ?_⟩
  · rw [hres]
  · rw [hres]
  · rw [getField_assign_self, getField_setField_ne _ _ _ _ (by decide), getField_setField_same]
  · rw [getField_assign_self, getField_setField_same]
  · simp only [List.length_append, List.length_singleton]
    exact_mod_cast Nat.succ_ne_zero qs.length
  · intro first' rest' hcons' hsum hdiv
    have hm : meanDouble (first' :: rest') = some mean := by rw [← hcons', hmean]
    have hlen : (qs ++ [r]).length = rest'.length + 1 := by rw [hcons', List.length_cons]
    simp only [meanDouble, hsum] at hm
    rw [hlen] at hdiv
    rw [hdiv] at hm
    rw [hlen]
    exact (Option.some.inj hm).symm
  · intro k hk1 hk2
    rw [getField_assign_self, getField_setField_ne _ _ _ _ hk2, getField_setField_ne _ _ _ _ hk1]
  · rw [getField_assign_self, getField_setField_same]
  · intro k hk
    rw [getField_assign_self, getField_setField_ne _ _ _ _ hk]
  · rfl
  · rfl
  · rfl

/-- C12, witness: a user rated `[4]` receives the rating 5; the sum 9 and the
quotient 9/2 are doubles, and the stored mean is 9/2. -/
theorem rateUser_mean_witness :
    ∃ ratedUser n,
      (rateUser refHost (fun n => 1000 + n) "v1"
          [("rating", JVal.num 5), ("taskId", JVal.str "1")]
          ⟨[[("id", JVal.str "1"), ("title", JVal.str "Walk"), ("rating", JVal.num 3)]],
            [[("id", JVal.str "v1"), ("ratings", JVal.arr [JVal.num 4])]], [], []⟩).2.notifications =
        [] ++ [n] ∧
      getField ratedUser "ratings" = JVal.arr [JVal.num 4, JVal.num 5] ∧
      getField ratedUser "averageRating" = JVal.num (9 / 2) ∧
      getField n "userId" = JVal.str "v1" := by
  obtain ⟨ratedUser, ratedTask, n, upre, upost, tpre, tpost, _, _, _, h4, h5, h6, _, _, _, _, _,
      _, h13, _⟩ :=
    rateUser_mean refHost (fun n => 1000 + n) "v1"
      [("rating", JVal.num 5), ("taskId", JVal.str "1")]
      ⟨[[("id", JVal.str "1"), ("title", JVal.str "Walk"), ("rating", JVal.num 3)]],
        [[("id", JVal.str "v1"), ("ratings", JVal.arr [JVal.num 4])]], [], []⟩
      [("id", JVal.str "v1"), ("ratings", JVal.arr [JVal.num 4])]
      [("id", JVal.str "1"), ("title", JVal.str "Walk"), ("rating", JVal.num 3)]
      [JVal.num 4] [4] 5 (mkRat 9 2) "Walk" rfl rfl rfl rfl rfl rfl rfl
  refine ⟨ratedUser, n, ?_, h5, ?_, h13⟩
  · rw [h4]
  · rw [h6, Rat.mkRat_eq_div]
    norm_num

set_option maxHeartbeats 2000000 in
/-- C12, counterexample: first, a user rated `[1, 1]` receives the rating 2:
the request succeeds and the stored `averageRating` is the double nearest to
4/3, which is 6004799503160661 / 2^52 (printed 1.3333333333333333), not the
arithmetic mean 4/3.  Second, a user rated `[2^53]` receives the rating 1: the
sum rounds to 2^53 and the stored mean is 2^52, not (2^53 + 1) / 2.  Third, a
user rated `[4]` receives the rating 5 on a task whose stored title is an
object with an own `toString` entry: the rating is pushed, `averageRating` and
`task.rating` are written, then the message template throws, and the request
ends with a 500 and no notification. -/
theorem rateUser_mean_counterexample :
    (rateUser refHost (fun n => 1000 + n) "v1"
        [("rating", JVal.num 2), ("taskId", JVal.str "1")]
        ⟨[[("id", JVal.str "1"), ("title", JVal.str "Walk")]],
          [[("id", JVal.str "v1"), ("ratings", JVal.arr [JVal.num 1, JVal.num 1])]],
          [], []⟩).2.users =
      [[("id", JVal.str "v1"), ("ratings", JVal.arr [JVal.num 1, JVal.num 1, JVal.num 2]),
        ("averageRating", JVal.num (mkRat 6004799503160661 4503599627370496))]] ∧
    mkRat 6004799503160661 4503599627370496 ≠ ((1 + 1 + 2 : Rat) / 3) ∧
    (rateUser refHost (fun n => 1000 + n) "v1"
        [("rating", JVal.num 1), ("taskId", JVal.str "1")]
        ⟨[[("id", JVal.str "1"), ("title", JVal.str "Walk")]],
          [[("id", JVal.str "v1"), ("ratings", JVal.arr [JVal.num 9007199254740992])]],
          [], []⟩).2.users =
      [[("id", JVal.str "v1"),
        ("ratings", JVal.arr [JVal.num 9007199254740992, JVal.num 1]),
        ("averageRating", JVal.num 4503599627370496)]] ∧
    (4503599627370496 : Rat) ≠ ((9007199254740992 + 1 : Rat) / 2) ∧
    rateUser refHost (fun n => 1000 + n) "v1"
        [("rating", JVal.num 5), ("taskId", JVal.str "1")]
        ⟨[[("id", JVal.str "1"), ("title", JVal.obj [("toString", JVal.null)])]],
          [[("id", JVal.str "v1"), ("ratings", JVal.arr [JVal.num 4])]], [], []⟩ =
      (Response.fault,
        ⟨[[("id", JVal.str "1"), ("title", JVal.obj [("toString", JVal.null)]),
            ("rating", JVal.num 5)]],
          [[("id", JVal.str "v1"), ("ratings", JVal.arr [JVal.num 4, JVal.num 5]),
            ("averageRating", JVal.num (mkRat 9 2))]], [], []⟩) := by
  refine ⟨rfl, ?_, rfl, ?_, rfl⟩
  · rw [Rat.mkRat_eq_div]
    norm_num
  · norm_num

/-- C13: `PATCH /users/:id/rate` answers with the 404 failure exactly when no
user has the id of the path or no task is selected by the body's `taskId`; when
it does, the store is unchanged: no rating is pushed, no `averageRating` or
`task.rating` is written, and no notification is created. -/
theorem rateUser_notFound (h : Host) (clock : Nat → Nat) (id : String) (body : Rec)
    (db : Store) :
    ((rateUser h clock id body db).1 = Response.json 404 rateNotFoundBody ↔
      (db.users.find? (matchesStrict "id" (JVal.str id)) = none ∨
        db.tasks.find? (matchesProp h "id" (getField body "taskId")) = none)) ∧
    ((rateUser h clock id body db).1 = Response.json 404 rateNotFoundBody →
      (rateUser h clock id body db).2 = db) := by
  cases hu : db.users.find? (matchesStrict "id" (JVal.str id)) with
  | none =>
    have hres : rateUser h clock id body db = (Response.json 404 rateNotFoundBody, db) := by
      simp [rateUser, hu]
    rw [hres]
    exact ⟨⟨fun _ => Or.inl rfl, fun _ => rfl⟩, fun _ => rfl⟩
  | some user =>
    cases ht : db.tasks.find? (matchesProp h "id" (getField body "taskId")) with
    | none =>
      have hres : rateUser h clock id body db = (Response.json 404 rateNotFoundBody, db) := by
        simp [rateUser, hu, ht]
      rw [hres]
      exact ⟨⟨fun _ => Or.inr rfl, fun _ => rfl⟩, fun _ => rfl⟩
    | some task =>
      have hne : (rateUser h clock id body db).1 ≠ Response.json 404 rateNotFoundBody := by
        simp only [rateUser, hu, ht]
        split
        · split
          · simp
          · split
            · split
              · simp
              · simp
            · simp
        · simp
      refine ⟨⟨fun hres => absurd hres hne, ?_⟩, fun hres => absurd hres hne⟩
      rintro (hn | hn)
      · cases hn
      · cases hn

/-- C13, witness: the user exists and the body names a task that does not; the
answer is 404 and the store is the one before. -/
theorem rateUser_notFound_witness :
    (rateUser refHost (fun n => 1000 + n) "v1" [("rating", JVal.num 5), ("taskId", JVal.str "9")]
        ⟨[[("id", JVal.str "1"), ("title", JVal.str "Walk")]],
          [[("id", JVal.str "v1"), ("ratings", JVal.arr [JVal.num 4])]], [], []⟩).2 =
      ⟨[[("id", JVal.str "1"), ("title", JVal.str "Walk")]],
        [[("id", JVal.str "v1"), ("ratings", JVal.arr [JVal.num 4])]], [], []⟩ :=
  (rateUser_notFound refHost (fun n => 1000 + n) "v1"
    [("rating", JVal.num 5), ("taskId", JVal.str "9")]
    ⟨[[("id", JVal.str "1"), ("title", JVal.str "Walk")]],
      [[("id", JVal.str "v1"), ("ratings", JVal.arr [JVal.num 4])]], [], []⟩).2 rfl

/-! ## MarkRead -/

theorem hasField_of_getField_ne_undefined (r : Rec) (k : String)
    (hg : getField r k ≠ JVal.undefined) : hasField r k = true := by
  cases hh : hasField r k with
  | true => rfl
  | false => exact absurd (getField_of_hasField_false r k hh) hg

theorem setField_eq_self (r : Rec) (k : String) (v : JVal)
    (hg : getField r k = v) (hh : hasField r k = true) : setField r k v = r := by
  induction r with
  | nil => simp [hasField] at hh
  | cons e rest ih =>
    obtain ⟨k₀, v₀⟩ := e
    by_cases h0 : k₀ = k
    · subst h0
      simp only [getField, if_true] at hg
      simp [setField, hg]
    · simp only [getField, h0, if_false] at hg
      simp only [hasField, h0, if_false] at hh
      simp [setField, h0, ih hg hh]

/-- The call `assign({ read: true })` is the write `n.read = true`. -/
theorem assign_read (n : Rec) :
    assign n [("read", JVal.bool true)] = setField n "read" (JVal.bool true) := by
  simp [assign, assignKeys, getField]

theorem matchesStrict_id_setField_read (id : String) (n : Rec) (v : JVal) :
    matchesStrict "id" (JVal.str id) (setField n "read" v) =
      matchesStrict "id" (JVal.str id) n := by
  simp [matchesStrict, getField_setField_ne n "read" "id" v (by decide), hasField_setField]

theorem setField_setField_same (r : Rec) (k : String) (v : JVal) :
    setField (setField r k v) k v = setField r k v := by
  apply setField_eq_self
  · exact getField_setField_same r k v
  · simp [hasField_setField]

theorem find?_append_of_all_false (p : Rec → Bool) (pre post : List Rec) (t : Rec)
    (hpre : ∀ r ∈ pre, p r = false) (ht : p t = true) :
    (pre ++ t :: post).find? p = some t := by
  induction pre with
  | nil => simp [List.find?, ht]
  | cons r rs ih =>
    have hr : p r = false := hpre r (List.mem_cons_self _ _)
    simp only [List.cons_append, List.find?, hr]
    exact ih (fun x hx => hpre x (List.mem_cons_of_mem _ hx))

theorem updateFirst_append_of_all_false (p : Rec → Bool) (f : Rec → Rec)
    (pre post : List Rec) (t : Rec)
    (hpre : ∀ r ∈ pre, p r = false) (ht : p t = true) :
    updateFirst p f (pre ++ t :: post) = pre ++ f t :: post := by
  induction pre with
  | nil => simp [updateFirst, ht]
  | cons r rs ih =>
    have hr : p r = false := hpre r (List.mem_cons_self _ _)
    simp [updateFirst, hr, ih (fun x hx => hpre x (List.mem_cons_of_mem _ hx))]

/-- C14: when some notification has the id, `PATCH /notifications/:id`
succeeds; the first notification carrying the id has `read = true` afterwards
and its other fields as before, and every other record of the store is
unchanged; a second request with the same id succeeds again and leaves exactly
the store the first one left.  When no notification has the id, the answer is
404 and the store is unchanged. -/
theorem markRead_idempotent (notificationId : String) (db : Store) :
    (∀ n, db.notifications.find? (matchesStrict "id" (JVal.str notificationId)) = some n →
      ∃ pre post marked,
        db.notifications = pre ++ n :: post ∧
        (∀ r ∈ pre, matchesStrict "id" (JVal.str notificationId) r = false) ∧
        markRead notificationId db =
          (Response.json 200 markedReadBody,
            { db with notifications := pre ++ marked :: post }) ∧
        getField marked "read" = JVal.bool true ∧
        (∀ k, k ≠ "read" → getField marked k = getField n k) ∧
        markRead notificationId (markRead notificationId db).2 =
          (Response.json 200 markedReadBody, (markRead notificationId db).2)) ∧
    (db.notifications.find? (matchesStrict "id" (JVal.str notificationId)) = none →
      markRead notificationId db = (Response.json 404 notificationNotFoundBody, db)) := by
  constructor
  · intro n hfind
    obtain ⟨pre, post, hsplit, hpre, hp, hupd⟩ :=
      updateFirst_of_find_some (matchesStrict "id" (JVal.str notificationId))
        (fun n => assign n [("read", JVal.bool true)]) db.notifications n hfind
    have hfirst : markRead notificationId db =
        (Response.json 200 markedReadBody,
          { db with notifications := pre ++ setField n "read" (JVal.bool true) :: post }) := by
      simp only [markRead, hfind]
      rw [hupd, assign_read]
    have hp2 : matchesStrict "id" (JVal.str notificationId)
        (setField n "read" (JVal.bool true)) = true := by
      rw [matchesStrict_id_setField_read, hp]
    have hfind2 : (pre ++ setField n "read" (JVal.bool true) :: post).find?
        (matchesStrict "id" (JVal.str notificationId)) =
          some (setField n "read" (JVal.bool true)) :=
      find?_append_of_all_false _ pre post _ hpre hp2
    have hupd2 : updateFirst (matchesStrict "id" (JVal.str notificationId))
        (fun n => assign n [("read", JVal.bool true)])
        (pre ++ setField n "read" (JVal.bool true) :: post) =
          pre ++ setField n "read" (JVal.bool true) :: post := by
      rw [updateFirst_append_of_all_false _ _ pre post _ hpre hp2, assign_read,
        setField_setField_same]
    refine ⟨pre, post, setField n "read" (JVal.bool true), hsplit, hpre, hfirst,
      getField_setField_same n "read" (JVal.bool true), ?_, ?_⟩
    · intro k hk
      exact getField_setField_ne n "read" k (JVal.bool true) hk
    · rw [hfirst]
      simp only [markRead, hfind2, hupd2]
  · intro hnone
    simp only [markRead, hnone]

/-- C14, witness: the second of two notifications is marked; marking it again
changes nothing. -/
theorem markRead_idempotent_witness :
    ∃ pre post marked,
      [[("id", JVal.str "n1"), ("read", JVal.bool false)],
        [("id", JVal.str "n2"), ("userId", JVal.str "e1"), ("read", JVal.bool false)]] =
          pre ++ [("id", JVal.str "n2"), ("userId", JVal.str "e1"),
            ("read", JVal.bool false)] :: post ∧
      markRead "n2" ⟨[], [], [],
          [[("id", JVal.str "n1"), ("read", JVal.bool false)],
            [("id", JVal.str "n2"), ("userId", JVal.str "e1"), ("read", JVal.bool false)]]⟩ =
        (Response.json 200 markedReadBody, ⟨[], [], [], pre ++ marked :: post⟩) ∧
      getField marked "read" = JVal.bool true ∧
      markRead "n2" (markRead "n2" ⟨[], [], [],
          [[("id", JVal.str "n1"), ("read", JVal.bool false)],
            [("id", JVal.str "n2"), ("userId", JVal.str "e1"), ("read", JVal.bool false)]]⟩).2 =
        (Response.json 200 markedReadBody, (markRead "n2" ⟨[], [], [],
          [[("id", JVal.str "n1"), ("read", JVal.bool false)],
            [("id", JVal.str "n2"), ("userId", JVal.str "e1"), ("read", JVal.bool false)]]⟩).2) := by
  obtain ⟨pre, post, marked, h1, _, h3, h4, _, h6⟩ :=
    (markRead_idempotent "n2" ⟨[], [], [],
      [[("id", JVal.str "n1"), ("read", JVal.bool false)],
        [("id", JVal.str "n2"), ("userId", JVal.str "e1"), ("read", JVal.bool false)]]⟩).1
      [("id", JVal.str "n2"), ("userId", JVal.str "e1"), ("read", JVal.bool false)] rfl
  exact ⟨pre, post, marked, h1, h3, h4, h6⟩

/-! ## Notification ids -/

/-- C15, at the failing input: the clock shows the same millisecond, 1000, at
every reading (a non-decreasing clock), and the store holds no notification.
One "Completed" update writes two notifications that both have the id "1000",
and one CreateTask with two volunteers writes two notifications that both have
the id "1000", which is also the id of the task. -/
theorem notification_ids_collide :
    (∀ i j : Nat, i ≤ j → (fun _ : Nat => 1000) i ≤ (fun _ : Nat => 1000) j) ∧
    (updateTask refHost (fun _ => 1000) "1" [("status", JVal.str "Completed")]
        ⟨[[("id", JVal.str "1"), ("title", JVal.str "Walk"), ("elderlyId", JVal.str "e1"),
            ("volunteerId", JVal.str "v1")]], [], [], []⟩).2.notifications.map
          (fun n => (getField n "id", getField n "userId")) =
      [(JVal.str "1000", JVal.str "e1"), (JVal.str "1000", JVal.str "v1")] ∧
    (createTask refHost (fun _ => 1000) [("title", JVal.str "Shopping")]
        ⟨[], [[("id", JVal.str "v1"), ("userType", JVal.str "volunteer")],
              [("id", JVal.str "v2"), ("userType", JVal.str "volunteer")]], [], []⟩).2.notifications.map
          (fun n => (getField n "id", getField n "userId")) =
      [(JVal.str "1000", JVal.str "v1"), (JVal.str "1000", JVal.str "v2")] :=
  ⟨fun _ _ _ => Nat.le_refl _, rfl, rfl⟩

/-! ## The notification log -/

theorem createNotification_news (h : Host) (clock : Nat → Nat) (k : Nat) (userId : JVal)
    (title message : String) (taskId : JVal) (db db' : Store)
    (hc : createNotification h clock k userId title message taskId db = some db') :
    ∃ n, db'.notifications = db.notifications ++ [n] ∧
      getField n "read" = JVal.bool false ∧ getField n "title" = JVal.str title := by
  unfold createNotification at hc
  cases hu : toStr h userId with
  | none => simp [hu] at hc
  | some s =>
    simp only [hu, Option.some.injEq] at hc
    subst hc
    exact ⟨_, rfl, rfl, rfl⟩

theorem notifyVolunteers_news (h : Host) (clock : Nat → Nat) (newTask : Rec)
    (vs : List Rec) (k : Nat) (db : Store) :
    ∃ news, (notifyVolunteers h clock newTask vs k db).2.notifications =
        db.notifications ++ news ∧
      ∀ n ∈ news, getField n "read" = JVal.bool false := by
  induction vs generalizing k db with
  | nil => exact ⟨[], by simp [notifyVolunteers], by simp⟩
  | cons v rest ih =>
    unfold notifyVolunteers
    cases hv : toStr h (getField v "id") with
    | none => exact ⟨[], by simp, by simp⟩
    | some s =>
      cases ht : toStr h (getField newTask "title") with
      | none => simpa using ih k db
      | some title =>
        simp only [createNotification, hv]
        obtain ⟨news, hn, hr⟩ := ih (k + 2)
          { db with notifications := db.notifications ++
              [newNotification h (clock k) (clock (k + 1)) (getField v "id")
                "New Task Available" (newTaskMessage title) (getField newTask "id")] }
        refine ⟨newNotification h (clock k) (clock (k + 1)) (getField v "id")
          "New Task Available" (newTaskMessage title) (getField newTask "id") :: news, ?_, ?_⟩
        · rw [hn]
          simp
        · intro n hmem
          rcases List.mem_cons.1 hmem with hmem | hmem
          · subst hmem
            rfl
          · exact hr n hmem

theorem notifyAccepted_news (h : Host) (clock : Nat → Nat) (taskId : String)
    (volunteerId : JVal) (task : Rec) (db db' : Store)
    (hn : notifyAccepted h clock taskId volunteerId task db = some db') :
    ∃ n, db'.notifications = db.notifications ++ [n] ∧
      getField n "read" = JVal.bool false ∧ getField n "title" = JVal.str "Task Accepted" := by
  unfold notifyAccepted at hn
  split at hn
  · simp at hn
  · split at hn
    · exact createNotification_news _ _ _ _ _ _ _ _ _ hn
    · simp at hn

theorem notifyRated_news (h : Host) (clock : Nat → Nat) (taskId : String)
    (rating : JVal) (task : Rec) (db db' : Store)
    (hn : notifyRated h clock taskId rating task db = some db') :
    ∃ n, db'.notifications = db.notifications ++ [n] ∧
      getField n "read" = JVal.bool false ∧ getField n "title" = JVal.str "Task Rated" := by
  unfold notifyRated at hn
  split at hn
  · exact createNotification_news _ _ _ _ _ _ _ _ _ hn
  · simp at hn

theorem notifyCompleted_news (h : Host) (clock : Nat → Nat) (taskId : String)
    (task : Rec) (db db' : Store) (b : Bool)
    (hn : notifyCompleted h clock taskId task db = (b, db')) :
    ∃ news, db'.notifications = db.notifications ++ news ∧
      (∀ n ∈ news, getField n "read" = JVal.bool false ∧
        getField n "title" = JVal.str "Task Completed") ∧
      (b = true → news.map (fun n => getField n "title") =
        [JVal.str "Task Completed", JVal.str "Task Completed"]) := by
  unfold notifyCompleted at hn
  split at hn
  · simp only [Prod.mk.injEq] at hn
    obtain ⟨hb, hdb⟩ := hn
    subst hb hdb
    exact ⟨[], by simp, by simp, by simp⟩
  · split at hn
    · simp only [Prod.mk.injEq] at hn
      obtain ⟨hb, hdb⟩ := hn
      subst hb hdb
      exact ⟨[], by simp, by simp, by simp⟩
    · next db1 h1 =>
      obtain ⟨n1, hn1, hr1, ht1⟩ := createNotification_news _ _ _ _ _ _ _ _ _ h1
      split at hn
      · simp only [Prod.mk.injEq] at hn
        obtain ⟨hb, hdb⟩ := hn
        subst hb hdb
        refine ⟨[n1], hn1, ?_, by simp⟩
        intro n hmem
        rw [List.mem_singleton] at hmem
        subst hmem
        exact ⟨hr1, ht1⟩
      · next db2 h2 =>
        obtain ⟨n2, hn2, hr2, ht2⟩ := createNotification_news _ _ _ _ _ _ _ _ _ h2
        simp only [Prod.mk.injEq] at hn
        obtain ⟨hb, hdb⟩ := hn
        subst hb hdb
        refine ⟨[n1, n2], by rw [hn2, hn1]; simp, ?_, ?_⟩
        · intro n hmem
          simp only [List.mem_cons, List.mem_singleton, List.not_mem_nil, or_false] at hmem
          rcases hmem with hmem | hmem
          · subst hmem
            exact ⟨hr1, ht1⟩
          · subst hmem
            exact ⟨hr2, ht2⟩
        · intro _
          simp [ht1, ht2]

/-- The notifications after `PATCH /tasks/:id` on an existing task, whatever
the outcome: the old ones followed by unread new ones whose titles are among
those of the rule the body selects, and all of that rule's titles when the
request is acknowledged. -/
theorem updateTask_news (h : Host) (clock : Nat → Nat) (taskId : String) (body : Rec)
    (db : Store) (found : Rec)
    (hfind : db.tasks.find? (matchesStrict "id" (JVal.str taskId)) = some found) :
    ∃ news, (updateTask h clock taskId body db).2.notifications = db.notifications ++ news ∧
      (∀ n ∈ news, getField n "read" = JVal.bool false) ∧
      (∀ n ∈ news, getField n "title" ∈ ruleTitles body) ∧
      ((updateTask h clock taskId body db).1 = Response.json 200 taskUpdatedBody →
        news.map (fun n => getField n "title") = ruleTitles body) := by
  simp only [updateTask, hfind]
  by_cases hacc : strictEq (getField body "status") (JVal.str "Accepted") = true
  · simp only [ruleTitles, if_pos hacc]
    split
    · exact ⟨[], by simp, by simp, by simp, by simp⟩
    · next db2 hn =>
      obtain ⟨n, h1, h2, h3⟩ := notifyAccepted_news _ _ _ _ _ _ _ hn
      exact ⟨[n], h1, by simp [h2], by simp [h3], by simp [h3]⟩
  · by_cases hcomp : strictEq (getField body "status") (JVal.str "Completed") = true
    · simp only [ruleTitles, if_neg hacc, if_pos hcomp]
      split
      · next db2 hn =>
        obtain ⟨news, h1, h2, _⟩ := notifyCompleted_news _ _ _ _ _ _ _ hn
        refine ⟨news, h1, fun n hmem => (h2 n hmem).1, ?_, by simp⟩
        intro n hmem
        simp [(h2 n hmem).2]
      · next db2 hn =>
        obtain ⟨news, h1, h2, h3⟩ := notifyCompleted_news _ _ _ _ _ _ _ hn
        refine ⟨news, h1, fun n hmem => (h2 n hmem).1, ?_, fun _ => h3 rfl⟩
        intro n hmem
        simp [(h2 n hmem).2]
    · by_cases hrule : (truthy (getField body "elderlyConfirmed") &&
          truthy (getField body "rating")) = true
      · simp only [ruleTitles, if_neg hacc, if_neg hcomp, if_pos hrule]
        split
        · exact ⟨[], by simp, by simp, by simp, by simp⟩
        · next db2 hn =>
          obtain ⟨n, h1, h2, h3⟩ := notifyRated_news _ _ _ _ _ _ _ hn
          exact ⟨[n], h1, by simp [h2], by simp [h3], by simp [h3]⟩
      · simp only [ruleTitles, if_neg hacc, if_neg hcomp, if_neg hrule]
        exact ⟨[], by simp, by simp, by simp, by simp⟩

theorem postMessage_news (h : Host) (clock : Nat → Nat) (taskId : String) (body : Rec)
    (db : Store) :
    ∃ news, (postMessage h clock taskId body db).2.notifications = db.notifications ++ news ∧
      ∀ n ∈ news, getField n "read" = JVal.bool false := by
  simp only [postMessage]
  split
  · exact ⟨[], by simp, by simp⟩
  · split
    · exact ⟨[], by simp, by simp⟩
    · split
      · exact ⟨[], by simp, by simp⟩
      · next db2 hn =>
        obtain ⟨n, h1, h2, _⟩ := createNotification_news _ _ _ _ _ _ _ _ _ hn
        exact ⟨[n], h1, by simp [h2]⟩

theorem rateUser_news (h : Host) (clock : Nat → Nat) (id : String) (body : Rec) (db : Store) :
    ∃ news, (rateUser h clock id body db).2.notifications = db.notifications ++ news ∧
      ∀ n ∈ news, getField n "read" = JVal.bool false := by
  simp only [rateUser]
  split
  · split
    · split
      · exact ⟨[], by simp, by simp⟩
      · split
        · split
          · exact ⟨[], by simp, by simp⟩
          · next db3 hn =>
            obtain ⟨n, h1, h2, _⟩ := createNotification_news _ _ _ _ _ _ _ _ _ hn
            exact ⟨[n], h1, by simp [h2]⟩
        · exact ⟨[], by simp, by simp⟩
    · exact ⟨[], by simp, by simp⟩
  · exact ⟨[], by simp, by simp⟩

theorem forall₂_updateFirst (R : Rec → Rec → Prop) (p : Rec → Bool) (f : Rec → Rec)
    (hrefl : ∀ r, R r r) (hf : ∀ r, R r (f r)) (l : List Rec) :
    List.Forall₂ R l (updateFirst p f l) := by
  induction l with
  | nil => exact List.Forall₂.nil
  | cons r rs ih =>
    by_cases hp : p r = true
    · have hu : updateFirst p f (r :: rs) = f r :: rs := by simp [updateFirst, hp]
      rw [hu]
      exact List.Forall₂.cons (hf r) (List.forall₂_same.2 (fun x _ => hrefl x))
    · simp only [Bool.not_eq_true] at hp
      have hu : updateFirst p f (r :: rs) = r :: updateFirst p f rs := by
        simp [updateFirst, hp]
      rw [hu]
      exact List.Forall₂.cons (hrefl r) ih

/-- C16: after any one of the six operations, succeeding or failing, the
notifications are the previous ones in their order, followed by zero or more
new ones that all have `read = false`.  Each previous notification is the
record it was, except that under MarkRead one whose `read` was not yet `true`
may now have `read = true`, all its other fields being as before.  Nothing is
removed, and `read` never leaves `true`. -/
theorem notifications_log (h : Host) (db : Store) (r : Request) :
    ∃ kept news,
      (step h db r).2.notifications = kept ++ news ∧
      List.Forall₂ (fun old new => new = old ∨
        ((∃ notificationId, r = Request.markRead notificationId) ∧
          getField old "read" ≠ JVal.bool true ∧
          getField new "read" = JVal.bool true ∧
          ∀ k, k ≠ "read" → getField new k = getField old k ∧ hasField new k = hasField old k))
        db.notifications kept ∧
      (∀ n ∈ news, getField n "read" = JVal.bool false) ∧
      ((∀ notificationId, r ≠ Request.markRead notificationId) → kept = db.notifications) := by
  have hsame : ∀ (news : List Rec) (db' : Store),
      db'.notifications = db.notifications ++ news →
      (∀ n ∈ news, getField n "read" = JVal.bool false) →
      ∃ kept news,
        db'.notifications = kept ++ news ∧
        List.Forall₂ (fun old new => new = old ∨
          ((∃ notificationId, r = Request.markRead notificationId) ∧
            getField old "read" ≠ JVal.bool true ∧
            getField new "read" = JVal.bool true ∧
            ∀ k, k ≠ "read" →
              getField new k = getField old k ∧ hasField new k = hasField old k))
          db.notifications kept ∧
        (∀ n ∈ news, getField n "read" = JVal.bool false) ∧
        ((∀ notificationId, r ≠ Request.markRead notificationId) →
          kept = db.notifications) := by
    intro news db' happ hread
    exact ⟨db.notifications, news, happ,
      List.forall₂_same.2 (fun x _ => Or.inl rfl), hread, fun _ => rfl⟩
  cases r with
  | createTask clock body =>
    obtain ⟨news, h1, h2⟩ := notifyVolunteers_news h clock (newTaskOf clock body)
      (volunteersOf { db with tasks := db.tasks ++ [newTaskOf clock body] }) 1
      { db with tasks := db.tasks ++ [newTaskOf clock body] }
    refine hsame news _ ?_ h2
    simp only [step, createTask]
    split
    · next db2 hn =>
      rw [hn] at h1
      exact h1
    · next db2 hn =>
      rw [hn] at h1
      exact h1
  | updateTask clock taskId body =>
    cases hf : db.tasks.find? (matchesStrict "id" (JVal.str taskId)) with
    | none => exact hsame [] _ (by simp [step, updateTask, hf]) (by simp)
    | some found =>
      obtain ⟨news, h1, h2, _, _⟩ := updateTask_news h clock taskId body db found hf
      exact hsame news _ h1 h2
  | archiveTask taskId =>
    refine hsame [] _ ?_ (by simp)
    simp only [step, archiveTask]
    split
    · simp
    · split <;> simp
  | postMessage clock taskId body =>
    obtain ⟨news, h1, h2⟩ := postMessage_news h clock taskId body db
    exact hsame news _ h1 h2
  | rateUser clock id body =>
    obtain ⟨news, h1, h2⟩ := rateUser_news h clock id body db
    exact hsame news _ h1 h2
  | markRead notificationId =>
    cases hf : db.notifications.find? (matchesStrict "id" (JVal.str notificationId)) with
    | none =>
      refine ⟨db.notifications, [], by simp [step, markRead, hf],
        List.forall₂_same.2 (fun x _ => Or.inl rfl), by simp, fun _ => rfl⟩
    | some n =>
      refine ⟨updateFirst (matchesStrict "id" (JVal.str notificationId))
          (fun n => assign n [("read", JVal.bool true)]) db.notifications, [],
        by simp [step, markRead, hf], ?_, by simp, ?_⟩
      · apply forall₂_updateFirst
        · intro x
          exact Or.inl rfl
        · intro x
          rw [assign_read]
          by_cases hx : getField x "read" = JVal.bool true
          · left
            exact setField_eq_self x "read" (JVal.bool true) hx
              (hasField_of_getField_ne_undefined x "read" (by rw [hx]; simp))
          · right
            refine ⟨⟨notificationId, rfl⟩, hx, getField_setField_same x "read" _, ?_⟩
            intro k hk
            exact ⟨getField_setField_ne x "read" k _ hk, by simp [hasField_setField, hk]⟩
      · intro hne
        exact absurd rfl (hne notificationId)

/-! ## CreateTask: the stored record -/

/-- The fan-out loop runs to its end when every volunteer's id renders; an
unrenderable title is caught inside the loop. -/
theorem notifyVolunteers_completes (h : Host) (clock : Nat → Nat) (newTask : Rec)
    (vs : List Rec) (k : Nat) (db : Store)
    (hr : ∀ v ∈ vs, (toStr h (getField v "id")).isSome = true) :
    (notifyVolunteers h clock newTask vs k db).1 = true := by
  induction vs generalizing k db with
  | nil => rfl
  | cons v rest ih =>
    obtain ⟨vid, hvid⟩ := Option.isSome_iff_exists.1 (hr v (List.mem_cons_self _ _))
    have hrest : ∀ w ∈ rest, (toStr h (getField w "id")).isSome = true :=
      fun w hw => hr w (List.mem_cons_of_mem _ hw)
    unfold notifyVolunteers
    cases ht : toStr h (getField newTask "title") with
    | none => simpa [hvid] using ih k db hrest
    | some title =>
      simp only [hvid, createNotification]
      exact ih (k + 2) _ hrest

/-- C17, amended: for every store and every request body, `POST /tasks` appends
exactly one task to the end of the tasks and leaves the existing ones
unchanged; the new task has every field of the body other than `id` with the
body's value and no further field except `id`, and its id is the rendering of
the clock reading, also when the body supplies an `id`.  When the id of every
volunteer can be rendered as text, the answer is 201 with exactly the task
stored. -/
theorem createTask_record (h : Host) (clock : Nat → Nat) (body : Rec) (db : Store) :
    (createTask h clock body db).2.tasks = db.tasks ++ [newTaskOf clock body] ∧
    getField (newTaskOf clock body) "id" = JVal.str (toString (clock 0)) ∧
    (∀ k, k ≠ "id" → getField (newTaskOf clock body) k = getField body k ∧
      hasField (newTaskOf clock body) k = hasField body k) ∧
    ((∀ v ∈ volunteersOf db, (toStr h (getField v "id")).isSome = true) →
      (createTask h clock body db).1 = Response.json 201 (JVal.obj (newTaskOf clock body))) := by
  refine ⟨createTask_tasks h clock body db, getField_newTaskOf_id clock body, ?_, ?_⟩
  · intro k hk
    refine ⟨getField_newTaskOf_ne clock body k hk, ?_⟩
    unfold newTaskOf
    rw [hasField_setField, hasField_spread]
    simp [hk]
  · intro hr
    have hflag := notifyVolunteers_completes h clock (newTaskOf clock body)
      (volunteersOf { db with tasks := db.tasks ++ [newTaskOf clock body] }) 1
      { db with tasks := db.tasks ++ [newTaskOf clock body] } hr
    simp only [createTask]
    split
    · rfl
    · next db2 hn =>
      rw [hn] at hflag
      cases hflag

/-- C17, witness: the body supplies an `id` of its own; the stored and returned
task carries the generated one. -/
theorem createTask_record_witness :
    (createTask refHost (fun n => 1000 + n) [("id", JVal.str "mine"), ("title", JVal.str "Walk")]
        ⟨[[("id", JVal.str "0")]], [[("id", JVal.str "v1"), ("userType", JVal.str "volunteer")]],
          [], []⟩).1 =
      Response.json 201 (JVal.obj [("id", JVal.str "1000"), ("title", JVal.str "Walk")]) :=
  (createTask_record refHost (fun n => 1000 + n)
    [("id", JVal.str "mine"), ("title", JVal.str "Walk")]
    ⟨[[("id", JVal.str "0")]], [[("id", JVal.str "v1"), ("userType", JVal.str "volunteer")]],
      [], []⟩).2.2.2
    (by
      intro v hv
      have hvs : volunteersOf ⟨[[("id", JVal.str "0")]],
          [[("id", JVal.str "v1"), ("userType", JVal.str "volunteer")]], [], []⟩ =
          [[("id", JVal.str "v1"), ("userType", JVal.str "volunteer")]] := rfl
      rw [hvs, List.mem_singleton] at hv
      subst hv
      rfl)

/-- C17, counterexample: a volunteer whose stored id is an object with an own
`toString` entry.  The task is stored, the log line of the fan-out throws, and
the caller receives a 500 instead of the task. -/
theorem createTask_record_counterexample :
    createTask refHost (fun n => 1000 + n) [("title", JVal.str "Walk")]
        ⟨[], [[("id", JVal.obj [("toString", JVal.null)]), ("userType", JVal.str "volunteer")]],
          [], []⟩ =
      (Response.fault,
        ⟨[[("title", JVal.str "Walk"), ("id", JVal.str "1000")]],
          [[("id", JVal.obj [("toString", JVal.null)]), ("userType", JVal.str "volunteer")]],
          [], []⟩) :=
  rfl

/-! ## Behaviour on the failing paths -/

/-- C18: on an existing task, a patch with status "Accepted" and a
`volunteerId` that selects no user ends with a 500 while the store already
holds the merged record in the task's place: its status is "Accepted", its
`volunteerId` is the one of the patch, every other field named by the patch has
the patch's value, and the notifications, users and messages are unchanged. -/
theorem updateTask_accept_not_atomic (h : Host) (clock : Nat → Nat) (taskId : String)
    (body : Rec) (db : Store) (found : Rec)
    (hfind : db.tasks.find? (matchesStrict "id" (JVal.str taskId)) = some found)
    (hstatus : getField body "status" = JVal.str "Accepted")
    (hhas : hasField body "volunteerId" = true)
    (hvol : db.users.find? (matchesProp h "id" (getField body "volunteerId")) = none) :
    ∃ pre post merged,
      db.tasks = pre ++ found :: post ∧
      updateTask h clock taskId body db =
        (Response.fault, { db with tasks := pre ++ merged :: post }) ∧
      getField merged "status" = JVal.str "Accepted" ∧
      getField merged "volunteerId" = getField body "volunteerId" ∧
      (∀ k, hasField body k = true → getField merged k = getField body k) ∧
      (∀ k, hasField body k = false → getField merged k = getField found k) := by
  obtain ⟨pre, post, hsplit, _, _, hupd⟩ :=
    updateFirst_of_find_some (matchesStrict "id" (JVal.str taskId))
      (fun t => assign t (spread body)) db.tasks found hfind
  have hhasStatus : hasField body "status" = true :=
    hasField_of_getField_ne_undefined body "status" (by rw [hstatus]; simp)
  have hrule : notifyAccepted h clock taskId (getField body "volunteerId")
      (assign found (spread body))
      { db with tasks := pre ++ assign found (spread body) :: post } = none := by
    simp [notifyAccepted, hvol]
  refine ⟨pre, post, assign found (spread body), hsplit, ?_, ?_, ?_, ?_, ?_⟩
  · simp only [updateTask, hfind, hstatus, hupd]
    simp [strictEq, hrule]
  · rw [getField_merge, if_pos hhasStatus, hstatus]
  · rw [getField_merge, if_pos hhas]
  · intro k hk
    rw [getField_merge, if_pos hk]
  · intro k hk
    rw [getField_merge, hk]
    simp

/-- C18, witness: the patch names a volunteer "ghost" that no user has; the
task is stored as accepted by "ghost" and the request fails. -/
theorem updateTask_accept_not_atomic_witness :
    ∃ pre post merged,
      [[("id", JVal.str "1"), ("title", JVal.str "Walk"), ("status", JVal.str "Created")]] =
        pre ++ [("id", JVal.str "1"), ("title", JVal.str "Walk"),
          ("status", JVal.str "Created")] :: post ∧
      updateTask refHost (fun n => 1000 + n) "1"
          [("status", JVal.str "Accepted"), ("volunteerId", JVal.str "ghost")]
          ⟨[[("id", JVal.str "1"), ("title", JVal.str "Walk"), ("status", JVal.str "Created")]],
            [[("id", JVal.str "v1")]], [], []⟩ =
        (Response.fault, ⟨pre ++ merged :: post, [[("id", JVal.str "v1")]], [], []⟩) ∧
      getField merged "status" = JVal.str "Accepted" ∧
      getField merged "volunteerId" = JVal.str "ghost" := by
  obtain ⟨pre, post, merged, h1, h2, h3, h4, _⟩ :=
    updateTask_accept_not_atomic refHost (fun n => 1000 + n) "1"
      [("status", JVal.str "Accepted"), ("volunteerId", JVal.str "ghost")]
      ⟨[[("id", JVal.str "1"), ("title", JVal.str "Walk"), ("status", JVal.str "Created")]],
        [[("id", JVal.str "v1")]], [], []⟩
      [("id", JVal.str "1"), ("title", JVal.str "Walk"), ("status", JVal.str "Created")]
      rfl rfl rfl rfl
  exact ⟨pre, post, merged, h1, h2, h3, h4⟩

theorem postMessage_messages (h : Host) (clock : Nat → Nat) (taskId : String) (body : Rec)
    (db : Store) :
    (postMessage h clock taskId body db).2.messages =
      db.messages ++ [newMessageOf clock taskId body] := by
  simp only [postMessage]
  split
  · rfl
  · split
    · rfl
    · split
      · rfl
      · next db2 hn => exact (createNotification_frame _ _ _ _ _ _ _ _ _ hn).2.2

theorem matchesStrict_taskId_newMessageOf (clock : Nat → Nat) (taskId : String) (body : Rec) :
    matchesStrict "taskId" (JVal.str taskId) (newMessageOf clock taskId body) = true := by
  simp [matchesStrict, getField_newMessageOf_taskId, strictEq]

/-- C19: for every `taskId`, whether or not a task has it, `POST
/tasks/:id/messages` appends the new message, which carries that `taskId`, to
the messages.  When no task has the id, the request then ends with a 500, the
message being stored and the notifications, tasks and users unchanged, and
`GET /tasks/:id/messages` on the resulting store returns the messages it
returned before followed by the new one. -/
theorem postMessage_persists_first (h : Host) (clock : Nat → Nat) (taskId : String)
    (body : Rec) (db : Store) :
    (postMessage h clock taskId body db).2.messages =
      db.messages ++ [newMessageOf clock taskId body] ∧
    getField (newMessageOf clock taskId body) "taskId" = JVal.str taskId ∧
    (db.tasks.find? (matchesStrict "id" (JVal.str taskId)) = none →
      postMessage h clock taskId body db =
        (Response.fault,
          { db with messages := db.messages ++ [newMessageOf clock taskId body] }) ∧
      (postMessage h clock taskId body db).2.notifications = db.notifications ∧
      listMessages taskId (postMessage h clock taskId body db).2 =
        listMessages taskId db ++ [newMessageOf clock taskId body]) := by
  refine ⟨postMessage_messages h clock taskId body db,
    getField_newMessageOf_taskId clock taskId body, ?_⟩
  intro hnone
  have hres : postMessage h clock taskId body db =
      (Response.fault,
        { db with messages := db.messages ++ [newMessageOf clock taskId body] }) := by
    simp only [postMessage, hnone]
  refine ⟨hres, by rw [hres], ?_⟩
  rw [hres]
  simp only [listMessages, List.filter_append]
  congr 1
  simp [List.filter, matchesStrict_taskId_newMessageOf]

/-- C19, witness: a message for the id "9", which no task has. -/
theorem postMessage_persists_first_witness :
    postMessage refHost (fun n => 1000 + n) "9" [("senderId", JVal.str "e1")]
        ⟨[[("id", JVal.str "1")]], [], [[("id", JVal.str "m0"), ("taskId", JVal.str "9")]], []⟩ =
      (Response.fault,
        ⟨[[("id", JVal.str "1")]], [],
          [[("id", JVal.str "m0"), ("taskId", JVal.str "9")]] ++
            [newMessageOf (fun n => 1000 + n) "9" [("senderId", JVal.str "e1")]], []⟩) ∧
    (postMessage refHost (fun n => 1000 + n) "9" [("senderId", JVal.str "e1")]
        ⟨[[("id", JVal.str "1")]], [], [[("id", JVal.str "m0"), ("taskId", JVal.str "9")]],
          []⟩).2.notifications = [] ∧
    listMessages "9" (postMessage refHost (fun n => 1000 + n) "9" [("senderId", JVal.str "e1")]
        ⟨[[("id", JVal.str "1")]], [], [[("id", JVal.str "m0"), ("taskId", JVal.str "9")]],
          []⟩).2 =
      listMessages "9" ⟨[[("id", JVal.str "1")]], [],
          [[("id", JVal.str "m0"), ("taskId", JVal.str "9")]], []⟩ ++
        [newMessageOf (fun n => 1000 + n) "9" [("senderId", JVal.str "e1")]] :=
  (postMessage_persists_first refHost (fun n => 1000 + n) "9" [("senderId", JVal.str "e1")]
    ⟨[[("id", JVal.str "1")]], [], [[("id", JVal.str "m0"), ("taskId", JVal.str "9")]],
      []⟩).2.2 rfl

/-! ## The rule is chosen by the patch -/

/-- C20, amended: take any two existing tasks, in the same store or in two, and
one patch.  Each update appends zero or more notifications to those present;
when both updates are acknowledged, the two appended lists have the same
length and the same titles in the same order, whatever the stored status,
confirmation and rating of the two tasks.  A patch without a `status` field
never appends a notification titled "Task Accepted" or "Task Completed",
acknowledged or not. -/
theorem updateTask_rule_by_patch (h : Host) (clockA clockB : Nat → Nat)
    (taskIdA taskIdB : String) (body : Rec) (dbA dbB : Store) (foundA foundB : Rec)
    (hfindA : dbA.tasks.find? (matchesStrict "id" (JVal.str taskIdA)) = some foundA)
    (hfindB : dbB.tasks.find? (matchesStrict "id" (JVal.str taskIdB)) = some foundB) :
    ∃ newsA newsB,
      (updateTask h clockA taskIdA body dbA).2.notifications = dbA.notifications ++ newsA ∧
      (updateTask h clockB taskIdB body dbB).2.notifications = dbB.notifications ++ newsB ∧
      ((updateTask h clockA taskIdA body dbA).1 = Response.json 200 taskUpdatedBody →
        (updateTask h clockB taskIdB body dbB).1 = Response.json 200 taskUpdatedBody →
        newsA.length = newsB.length ∧
        newsA.map (fun n => getField n "title") = newsB.map (fun n => getField n "title")) ∧
      (hasField body "status" = false →
        ∀ n ∈ newsA ++ newsB,
          getField n "title" ≠ JVal.str "Task Accepted" ∧
          getField n "title" ≠ JVal.str "Task Completed") := by
  obtain ⟨newsA, hA1, _, hA3, hA4⟩ := updateTask_news h clockA taskIdA body dbA foundA hfindA
  obtain ⟨newsB, hB1, _, hB3, hB4⟩ := updateTask_news h clockB taskIdB body dbB foundB hfindB
  refine ⟨newsA, newsB, hA1, hB1, ?_, ?_⟩
  · intro hokA hokB
    have htitles : newsA.map (fun n => getField n "title") =
        newsB.map (fun n => getField n "title") := by
      rw [hA4 hokA, hB4 hokB]
    refine ⟨?_, htitles⟩
    have hlen := congrArg List.length htitles
    simpa using hlen
  · intro hno n hmem
    have hstatus : getField body "status" = JVal.undefined :=
      getField_of_hasField_false body "status" hno
    have hin : getField n "title" ∈ ruleTitles body := by
      rcases List.mem_append.1 hmem with hm | hm
      · exact hA3 n hm
      · exact hB3 n hm
    have hrule : ruleTitles body = [JVal.str "Task Rated"] ∨ ruleTitles body = [] := by
      unfold ruleTitles
      rw [hstatus]
      by_cases hr : (truthy (getField body "elderlyConfirmed") &&
          truthy (getField body "rating")) = true
      · left
        simp [strictEq, hr]
      · right
        simp [strictEq, hr]
    rcases hrule with hrule | hrule
    · rw [hrule, List.mem_singleton] at hin
      rw [hin]
      constructor <;> simp
    · rw [hrule] at hin
      cases hin

/-- C20, witness: a confirmation with a rating, sent to a task stored as
"Accepted" and to one stored as "Completed"; each gets one notification with
the same title. -/
theorem updateTask_rule_by_patch_witness :
    ∃ newsA newsB,
      (updateTask refHost (fun n => 1000 + n) "1"
          [("elderlyConfirmed", JVal.bool true), ("rating", JVal.num 4)]
          ⟨[[("id", JVal.str "1"), ("status", JVal.str "Accepted")],
            [("id", JVal.str "2"), ("status", JVal.str "Completed")]], [], [], []⟩).2.notifications =
        [] ++ newsA ∧
      (updateTask refHost (fun n => 2000 + n) "2"
          [("elderlyConfirmed", JVal.bool true), ("rating", JVal.num 4)]
          ⟨[[("id", JVal.str "1"), ("status", JVal.str "Accepted")],
            [("id", JVal.str "2"), ("status", JVal.str "Completed")]], [], [], []⟩).2.notifications =
        [] ++ newsB ∧
      newsA.length = newsB.length ∧
      ∀ n ∈ newsA ++ newsB,
        getField n "title" ≠ JVal.str "Task Accepted" ∧
        getField n "title" ≠ JVal.str "Task Completed" := by
  obtain ⟨newsA, newsB, h1, h2, h3, h4⟩ :=
    updateTask_rule_by_patch refHost (fun n => 1000 + n) (fun n => 2000 + n) "1" "2"
      [("elderlyConfirmed", JVal.bool true), ("rating", JVal.num 4)]
      ⟨[[("id", JVal.str "1"), ("status", JVal.str "Accepted")],
        [("id", JVal.str "2"), ("status", JVal.str "Completed")]], [], [], []⟩
      ⟨[[("id", JVal.str "1"), ("status", JVal.str "Accepted")],
        [("id", JVal.str "2"), ("status", JVal.str "Completed")]], [], [], []⟩
      [("id", JVal.str "1"), ("status", JVal.str "Accepted")]
      [("id", JVal.str "2"), ("status", JVal.str "Completed")] rfl rfl
  exact ⟨newsA, newsB, h1, h2, (h3 rfl rfl).1, h4 rfl⟩

/-- C20, counterexample: one store, two tasks, the patch `status: "Completed"`
for each.  On the first task two notifications are appended and the request is
acknowledged; on the second, whose stored title is an object with an own
`toString` entry, the message template throws and nothing is appended. -/
theorem updateTask_rule_by_patch_counterexample :
    (updateTask refHost (fun n => 1000 + n) "1" [("status", JVal.str "Completed")]
        ⟨[[("id", JVal.str "1"), ("title", JVal.str "Walk")],
          [("id", JVal.str "2"), ("title", JVal.obj [("toString", JVal.null)])]],
          [], [], []⟩).2.notifications.map (fun n => getField n "title") =
      [JVal.str "Task Completed", JVal.str "Task Completed"] ∧
    (updateTask refHost (fun n => 1000 + n) "2" [("status", JVal.str "Completed")]
        ⟨[[("id", JVal.str "1"), ("title", JVal.str "Walk")],
          [("id", JVal.str "2"), ("title", JVal.obj [("toString", JVal.null)])]],
          [], [], []⟩).2.notifications.map (fun n => getField n "title") = [] ∧
    (updateTask refHost (fun n => 1000 + n) "2" [("status", JVal.str "Completed")]
        ⟨[[("id", JVal.str "1"), ("title", JVal.str "Walk")],
          [("id", JVal.str "2"), ("title", JVal.obj [("toString", JVal.null)])]],
          [], [], []⟩).1 = Response.fault :=
  ⟨rfl, rfl, rfl⟩

end ElderEase
